import Mathlib

/-!
# dtime.c: Discord timestamp generator

A shallow embedding of `src/dtime.c` (`WinMain`, `RunReadMode`, `GenerateTimestamp`) and the
properties of its conversion core.

Conventions of the embedding.

* A C string is the list of its characters before the terminating NUL.
* The data model is the one of the Win32 target the source is written for: `int` and `long`
  are 32 bits wide, `long long` and `time_t` are 64 bits wide.  A value stored in an `int` or
  cast to `long` is reduced to 32 bits (`wrapInt32`); where ISO C leaves an overflow
  undefined (`%d`, `atoi`, `year - 1900`), the theorems keep the values in range.
* The C library functions the program calls (`strtoll`, `sscanf`, `atoi`, `mktime`,
  `localtime`, `strftime`, `sprintf`) are modelled by their ISO C contract in the "C" locale,
  with the local time zone fixed to UTC+0 without daylight saving time.
* The range of times that `mktime` and `localtime` convert is implementation-defined; it is
  the parameter `CLib` of the model.  `fullRange` is a library that converts every 64-bit
  `time_t`; `from1970` one that converts the years 1970 to 3000 only, as the Microsoft C
  runtime does.
* A run of `RunReadMode` is the triple of its exit code, the text written to the console and
  the text placed on the clipboard (if any); a run that passes a null pointer to `strftime`
  has undefined behaviour.
* A run of `GenerateTimestamp` is the text shown in the output field; a run in which
  `sprintf` writes past the end of the 20-byte buffer has undefined behaviour.
-/

namespace Dtime

/-- A C string: the characters before the terminating NUL. -/
abbrev CString := List Char

/-! ## Machine integers -/

/-- Smallest value of the 32-bit `int` and `long`. -/
def INT_MIN : Int := -2147483648

/-- Largest value of the 32-bit `int` and `long`. -/
def INT_MAX : Int := 2147483647

/-- Smallest value of the 64-bit `long long` and `time_t`. -/
def LLONG_MIN : Int := -9223372036854775808

/-- Largest value of the 64-bit `long long` and `time_t`. -/
def LLONG_MAX : Int := 9223372036854775807

/-- Conversion of an integer to a 32-bit two's complement `int` or `long` (the cast `(long)`
of a `time_t`, and an arithmetic result stored in an `int`). -/
def wrapInt32 (v : Int) : Int := (v + 2147483648) % 4294967296 - 2147483648

/-- Saturation of `strtoll`: a value out of the range of `long long` is replaced by the
nearest bound. -/
def clampLLong (v : Int) : Int :=
  if v < LLONG_MIN then LLONG_MIN else if LLONG_MAX < v then LLONG_MAX else v

/-! ## Character classes and decimal numerals -/

/-- The white-space characters of `isspace` in the "C" locale. -/
def isspace (c : Char) : Bool :=
  c = ' ' || c = '\t' || c = '\n' || c = '\x0b' || c = '\x0c' || c = '\r'

/-- The decimal digits. -/
def isdigit (c : Char) : Bool := decide ('0' ≤ c) && decide (c ≤ '9')

/-- Value of a decimal digit. -/
def digitVal (c : Char) : Nat := c.toNat - 48

/-- Reads the longest run of decimal digits, accumulating its value on `acc`; returns the
value and the unread rest. -/
def scanDigits : CString → Nat → Nat × CString
  | [], acc => (acc, [])
  | c :: cs, acc => if isdigit c then scanDigits cs (acc * 10 + digitVal c) else (acc, c :: cs)

/-- The subject sequence of a decimal integer conversion (`strtoll` with base 10, `%d`):
optional white space, an optional sign, then at least one digit.  Returns the mathematical
value and the unread rest, or `none` when no conversion can be performed. -/
def scanInteger (s : CString) : Option (Int × CString) :=
  let s1 := s.dropWhile isspace
  let neg := s1.head? = some '-'
  let s2 := if s1.head? = some '-' ∨ s1.head? = some '+' then s1.tail else s1
  match s2 with
  | [] => none
  | c :: _ =>
    if isdigit c then
      let r := scanDigits s2 0
      some (if neg then -(r.1 : Int) else (r.1 : Int), r.2)
    else none

/-- Model of `strtoll(nptr, &endPtr, 10)`: `none` when no conversion is performed (then
`endPtr == nptr`), else the saturated value and the string `endPtr` points to. -/
def strtoll (nptr : CString) : Option (Int × CString) :=
  (scanInteger nptr).map fun r => (clampLLong r.1, r.2)

/-- Model of `atoi`: 0 when no conversion is performed, else the value as an `int`. -/
def atoi (s : CString) : Int :=
  match scanInteger s with
  | some r => wrapInt32 r.1
  | none => 0

/-- Decimal numeral of a natural number. -/
def fmtNat (n : Nat) : CString := Nat.toDigits 10 n

/-- Model of the conversions `%d` and `%ld` of `printf`: the signed decimal numeral. -/
def fmtInt (v : Int) : CString :=
  if v < 0 then '-' :: fmtNat v.natAbs else fmtNat v.natAbs

/-- Two-digit field (the conversions `%d`, `%I`, `%M`, `%S` of `strftime`, and the fields of
the text `HH:MM:SS DD/MM`): the decimal numeral, padded with a zero to two characters. -/
def fmt02 (v : Int) : CString :=
  if 0 ≤ v ∧ v < 10 then '0' :: fmtInt v else fmtInt v

/-! ## `sscanf` -/

/-- The directives of a `scanf` format that the program uses. -/
inductive Directive where
  | int : Directive
  | lit : Char → Directive
  | space : Directive
deriving DecidableEq

/-- Runs the directives on the input; `acc` holds the integers assigned so far.  A `%d`
skips white space and converts a decimal integer, an ordinary character must match the next
input character, a white-space directive skips any amount of white space. -/
def scanfRun : List Directive → CString → List Int → List Int
  | [], _, acc => acc
  | Directive.int :: ds, s, acc =>
    match scanInteger s with
    | some r => scanfRun ds r.2 (acc ++ [wrapInt32 r.1])
    | none => acc
  | Directive.lit c :: ds, s, acc =>
    match s with
    | [] => acc
    | c1 :: rest => if c1 = c then scanfRun ds rest acc else acc
  | Directive.space :: ds, s, acc => scanfRun ds (s.dropWhile isspace) acc

/-- The format `"%d:%d:%d %d/%d/%d"`. -/
def humanFormat : List Directive :=
  [Directive.int, Directive.lit ':', Directive.int, Directive.lit ':', Directive.int,
   Directive.space,
   Directive.int, Directive.lit '/', Directive.int, Directive.lit '/', Directive.int]

/-- Model of `sscanf(s, "%d:%d:%d %d/%d/%d", ...)`: the integers assigned, in order. -/
def sscanfHuman (s : CString) : List Int := scanfRun humanFormat s []

/-- The return value of that `sscanf` call: the number of assigned items, or `EOF` (-1) when
the input ends before the first conversion. -/
def itemsParsed (s : CString) : Int :=
  if s.dropWhile isspace = [] then -1 else ((sscanfHuman s).length : Int)

/-! ## Calendar arithmetic of `mktime` and `localtime` (time zone UTC+0) -/

/-- The broken-down time `struct tm`. -/
structure Tm where
  tm_sec : Int
  tm_min : Int
  tm_hour : Int
  tm_mday : Int
  tm_mon : Int
  tm_year : Int
  tm_wday : Int
  tm_yday : Int
  tm_isdst : Int
deriving DecidableEq

/-- Number of days from 1970-01-01 to the day `d` of month `m` (1 to 12) of year `y` in the
proleptic Gregorian calendar; linear in `d`. -/
def daysFromCivil (y m d : Int) : Int :=
  let y1 := if m ≤ 2 then y - 1 else y
  let era := y1 / 400
  let yoe := y1 - era * 400
  let doy := (153 * (if m > 2 then m - 3 else m + 9) + 2) / 5 + d - 1
  let doe := yoe * 365 + yoe / 4 - yoe / 100 + doy
  era * 146097 + doe - 719468

/-- The civil date (year, month 1 to 12, day) of the day number `z0` counted from 1970-01-01. -/
def civilFromDays (z0 : Int) : Int × Int × Int :=
  let z := z0 + 719468
  let era := z / 146097
  let doe := z - era * 146097
  let yoe := (doe - doe / 1460 + doe / 36524 - doe / 146096) / 365
  let y := yoe + era * 400
  let doy := doe - (365 * yoe + yoe / 4 - yoe / 100)
  let mp := (5 * doy + 2) / 153
  let d := doy - (153 * mp + 2) / 5 + 1
  let m := if mp < 10 then mp + 3 else mp - 9
  (if m ≤ 2 then y + 1 else y, m, d)

/-- The implementation-defined part of the C library that the program depends on: the range
of `time_t` values that `mktime` can return and that `localtime` can convert.  ISO C leaves
that range to the implementation: `mktime` returns `(time_t)-1` "if the calendar time cannot
be represented", `localtime` returns a null pointer "if the specified time cannot be
converted". -/
structure CLib where
  timeMin : Int
  timeMax : Int
deriving DecidableEq

/-- The library converts the time `t`. -/
def CLib.Converts (lib : CLib) (t : Int) : Prop := lib.timeMin ≤ t ∧ t ≤ lib.timeMax

instance (lib : CLib) (t : Int) : Decidable (lib.Converts t) := by
  unfold CLib.Converts; infer_instance

/-- A library that converts every 64-bit `time_t`, as glibc does. -/
def fullRange : CLib := { timeMin := LLONG_MIN, timeMax := LLONG_MAX }

/-- A library that converts only the times from 1970-01-01 00:00:00 to 3000-12-31 23:59:59,
the range of the Microsoft C runtime. -/
def from1970 : CLib := { timeMin := 0, timeMax := 32535215999 }

/-- Model of `mktime` in the time zone UTC+0: the fields are taken as they are, also out of
their normal ranges (a month out of 0..11 carries into the year, days, hours, minutes and
seconds are added up), and the result is the number of seconds since the epoch; `(time_t)-1`
when the library cannot represent that number. -/
def mktime (lib : CLib) (tm : Tm) : Int :=
  let year := tm.tm_year + 1900 + tm.tm_mon / 12
  let mon := tm.tm_mon % 12
  let days := daysFromCivil year (mon + 1) 1 + (tm.tm_mday - 1)
  let t := days * 86400 + tm.tm_hour * 3600 + tm.tm_min * 60 + tm.tm_sec
  if lib.Converts t ∧ LLONG_MIN ≤ t ∧ t ≤ LLONG_MAX then t else -1

/-- Model of `localtime` in the time zone UTC+0: the broken-down time of `t` seconds since
the epoch, or `none` (a null pointer) when the library does not convert `t` or the year does
not fit the `int` field `tm_year`. -/
def localtime (lib : CLib) (t : Int) : Option Tm :=
  let days := t / 86400
  let rem := t % 86400
  let ymd := civilFromDays days
  if lib.Converts t ∧ INT_MIN ≤ ymd.1 - 1900 ∧ ymd.1 - 1900 ≤ INT_MAX then
    some { tm_sec := rem % 60, tm_min := rem / 60 % 60, tm_hour := rem / 3600,
           tm_mday := ymd.2.2, tm_mon := ymd.2.1 - 1, tm_year := ymd.1 - 1900,
           tm_wday := (days + 4) % 7, tm_yday := days - daysFromCivil ymd.1 1 1,
           tm_isdst := 0 }
  else none

/-- The conversion `%A`: full weekday name, by `tm_wday` (0 is Sunday). -/
def weekdayName (wday : Int) : CString :=
  if wday = 0 then "Sunday".toList
  else if wday = 1 then "Monday".toList
  else if wday = 2 then "Tuesday".toList
  else if wday = 3 then "Wednesday".toList
  else if wday = 4 then "Thursday".toList
  else if wday = 5 then "Friday".toList
  else if wday = 6 then "Saturday".toList
  else "?".toList

/-- The conversion `%B`: full month name, by `tm_mon` (0 is January). -/
def monthName (mon : Int) : CString :=
  if mon = 0 then "January".toList
  else if mon = 1 then "February".toList
  else if mon = 2 then "March".toList
  else if mon = 3 then "April".toList
  else if mon = 4 then "May".toList
  else if mon = 5 then "June".toList
  else if mon = 6 then "July".toList
  else if mon = 7 then "August".toList
  else if mon = 8 then "September".toList
  else if mon = 9 then "October".toList
  else if mon = 10 then "November".toList
  else if mon = 11 then "December".toList
  else "?".toList

/-- The conversion `%I`: the hour of the 12-hour clock (1 to 12). -/
def hour12 (hour : Int) : Int := if hour % 12 = 0 then 12 else hour % 12

/-- The conversion `%p`. -/
def ampm (hour : Int) : CString := if hour < 12 then "AM".toList else "PM".toList

/-- Model of `strftime(buffer, 128, "%A, %B %d, %Y at %I:%M:%S %p", tm)`.  For a result of
`localtime` the text has at most 51 characters (`strftime_fits_buffer`), so the 128-byte
buffer always holds it. -/
def strftime (tm : Tm) : CString :=
  weekdayName tm.tm_wday ++ ", ".toList ++ monthName tm.tm_mon ++ " ".toList
    ++ fmt02 tm.tm_mday ++ ", ".toList ++ fmtInt (tm.tm_year + 1900) ++ " at ".toList
    ++ fmt02 (hour12 tm.tm_hour) ++ ":".toList ++ fmt02 tm.tm_min ++ ":".toList
    ++ fmt02 tm.tm_sec ++ " ".toList ++ ampm tm.tm_hour

/-! ## `RunReadMode` -/

/-- The outcome of a console run. -/
inductive Run where
  | exited (exitCode : Int) (console : CString) (clipboard : Option CString) : Run
  | undefinedBehaviour : Run
deriving DecidableEq

/-- The double quote character. -/
def dquote : Char := Char.ofNat 34

/-- Lines 111-129 of `RunReadMode`: skip leading spaces and tabs, copy at most 255
characters into `cleanInput`, remove one leading and then one trailing double quote. -/
def sanitize (inputStr : CString) : CString :=
  let start := inputStr.dropWhile fun c => c = ' ' || c = '\t'
  let clean := start.take 255
  let clean1 := if clean.head? = some dquote then clean.tail else clean
  if clean1.getLast? = some dquote then clean1.dropLast else clean1

/-- The message of the parse error (line 140). -/
def parseErrorText : CString := "Error: Could not parse number from timestamp.\n".toList

/-- The two lines of the format error (lines 162-163). -/
def formatErrorText : CString :=
  "Error: Invalid input format provided.\n".toList
    ++ "Please use \x22HH:MM:SS DD/MM/YYYY\x22 or \x22<t:TIMESTAMP:F>\x22\n".toList

/-- The message of the date error (line 179). -/
def dateErrorText : CString :=
  "Error: Could not convert the provided date/time. It may be invalid.\n".toList

/-- The text `sprintf(buffer, "<t:%ld:F>", (long)timestamp)` formats. -/
def markup (timestamp : Int) : CString :=
  "<t:".toList ++ fmtInt (wrapInt32 timestamp) ++ ":F>".toList

/-- Lines 133-151: the markup branch, on the sanitized input. -/
def decodeMarkup (lib : CLib) (cleanInput : CString) : Run :=
  match strtoll (cleanInput.drop 3) with
  | none => Run.exited 1 parseErrorText none
  | some r =>
    if r.2.head? ≠ some ':' ∧ r.2.head? ≠ some '>' then Run.exited 1 parseErrorText none
    else
      match localtime lib r.1 with
      | none => Run.undefinedBehaviour
      | some timeinfo =>
        Run.exited 0
          ("Timestamp ".toList ++ cleanInput ++ " corresponds to:\n".toList
            ++ strftime timeinfo ++ "\n".toList) none

/-- Lines 168-174: the fields of `timeinfo` from the six integers. -/
def fieldsToTm (hour minute second day month year : Int) : Tm :=
  { tm_sec := second, tm_min := minute, tm_hour := hour, tm_mday := day,
    tm_mon := wrapInt32 (month - 1), tm_year := wrapInt32 (year - 1900),
    tm_wday := 0, tm_yday := 0, tm_isdst := -1 }

/-- Lines 153-200: the human-readable branch, on the sanitized input. -/
def encodeHuman (lib : CLib) (cleanInput : CString) : Run :=
  if itemsParsed cleanInput ≠ 6 then Run.exited 1 formatErrorText none
  else
    match sscanfHuman cleanInput with
    | [hour, minute, second, day, month, year] =>
      let timestamp := mktime lib (fieldsToTm hour minute second day month year)
      if timestamp = -1 then Run.exited 1 dateErrorText none
      else
        Run.exited 0
          ("Generated Timestamp: ".toList ++ markup timestamp ++ "\n".toList
            ++ "Timestamp copied to clipboard.\n".toList)
          (some (markup timestamp))
    | _ => Run.exited 1 formatErrorText none

/-- The function `RunReadMode` (lines 99-204). -/
def RunReadMode (lib : CLib) (inputStr : CString) : Run :=
  let cleanInput := sanitize inputStr
  if cleanInput.take 3 = "<t:".toList then decodeMarkup lib cleanInput
  else encodeHuman lib cleanInput

/-! ## `WinMain`: mode selection -/

/-- The three front-ends `WinMain` can hand over to. -/
inductive Mode where
  | read (inputStr : CString) : Mode
  | nogui : Mode
  | gui : Mode
deriving DecidableEq

/-- Lines 49-66 of `WinMain`: skip leading spaces and tabs of the command line, then select
`RunReadMode` on the text after the flag, `RunNoGuiMode`, or the window. -/
def WinMain (lpCmdLine : CString) : Mode :=
  let cmdLine := lpCmdLine.dropWhile fun c => c = ' ' || c = '\t'
  if cmdLine.take 7 = "--read ".toList then Mode.read (cmdLine.drop 7)
  else if cmdLine = "--nogui".toList then Mode.nogui
  else Mode.gui

/-! ## `GenerateTimestamp` -/

/-- Size in bytes of the stack buffer of `GenerateTimestamp` (line 312). -/
def bufferSize : Nat := 20

/-- The sentinel `sprintf` formats on the failure path (line 328). -/
def guiErrorText : CString := "Error: Invalid date/time.".toList

/-- Model of `GetWindowText(h, buffer, 20)` followed by `atoi(buffer)`: at most 19 characters
of the control's text are copied. -/
def readField (text : CString) : Int := atoi (text.take (bufferSize - 1))

/-- Lines 313-321: the fields of `timeinfo` from the texts of the six edit controls. -/
def guiTm (yearText monthText dayText hourText minuteText secondText : CString) : Tm :=
  { tm_sec := readField secondText, tm_min := readField minuteText,
    tm_hour := readField hourText, tm_mday := readField dayText,
    tm_mon := wrapInt32 (readField monthText - 1),
    tm_year := wrapInt32 (readField yearText - 1900),
    tm_wday := 0, tm_yday := 0, tm_isdst := -1 }

/-- Lines 323-329: the text `sprintf` formats into `buffer` for a result of `mktime`. -/
def guiFormat (timestamp : Int) : CString :=
  if timestamp ≠ -1 then markup timestamp else guiErrorText

/-- Whether `sprintf` stays inside `buffer`: the text and its terminating NUL take at most
`bufferSize` bytes. -/
def fitsBuffer (text : CString) : Bool := decide (text.length + 1 ≤ bufferSize)

/-- The outcome of `GenerateTimestamp`: the text handed to `SetWindowText(hOutput, buffer)`,
or undefined behaviour when `sprintf` has written past the end of `buffer`. -/
inductive GuiRun where
  | shown (text : CString) : GuiRun
  | undefinedBehaviour : GuiRun
deriving DecidableEq

/-- The text `sprintf` formats in `GenerateTimestamp` (lines 313-329), from the texts of the
six edit controls. -/
def guiText (lib : CLib)
    (yearText monthText dayText hourText minuteText secondText : CString) : CString :=
  guiFormat (mktime lib (guiTm yearText monthText dayText hourText minuteText secondText))

/-- The function `GenerateTimestamp` (lines 310-332), from the texts of the six edit
controls: `sprintf` formats the text into the 20-byte `buffer` (line 312); when the text and
its NUL fit, the text is shown in the output field; when they do not, `sprintf` writes past
the end of the buffer and the behaviour is undefined. -/
def GenerateTimestamp (lib : CLib)
    (yearText monthText dayText hourText minuteText secondText : CString) : GuiRun :=
  if fitsBuffer (guiText lib yearText monthText dayText hourText minuteText secondText) then
    GuiRun.shown (guiText lib yearText monthText dayText hourText minuteText secondText)
  else GuiRun.undefinedBehaviour

/-! ## Vocabulary of the specification -/

/-- Leap years of the Gregorian calendar. -/
def isLeapYear (y : Int) : Bool := y % 4 = 0 && (y % 100 ≠ 0 || y % 400 = 0)

/-- Number of days of month `m` (1 to 12) in year `y`. -/
def daysInMonth (y m : Int) : Int :=
  if m = 2 then (if isLeapYear y then 29 else 28)
  else if m = 4 ∨ m = 6 ∨ m = 9 ∨ m = 11 then 30
  else 31

/-- A valid calendar moment: month 1-12, day valid for that month and year, hour 0-23,
minute 0-59, second 0-59. -/
def ValidMoment (hour minute second day month year : Int) : Prop :=
  0 ≤ hour ∧ hour ≤ 23 ∧ 0 ≤ minute ∧ minute ≤ 59 ∧ 0 ≤ second ∧ second ≤ 59
    ∧ 1 ≤ month ∧ month ≤ 12 ∧ 1 ≤ day ∧ day ≤ daysInMonth year month

instance (hour minute second day month year : Int) :
    Decidable (ValidMoment hour minute second day month year) := by
  unfold ValidMoment; infer_instance

/-- The text `HH:MM:SS DD/MM/YYYY` of six integers. -/
def humanText (hour minute second day month year : Int) : CString :=
  fmt02 hour ++ ":".toList ++ fmt02 minute ++ ":".toList ++ fmt02 second ++ " ".toList
    ++ fmt02 day ++ "/".toList ++ fmt02 month ++ "/".toList ++ fmtInt year

/-- Seconds from the epoch to a calendar moment in the time zone UTC+0; the fields are
accepted out of their ranges too and then carry over (month 13 is January of the next year). -/
def epochSeconds (hour minute second day month year : Int) : Int :=
  (daysFromCivil (year + (month - 1) / 12) ((month - 1) % 12 + 1) 1 + (day - 1)) * 86400
    + hour * 3600 + minute * 60 + second

/-- The rendering `Weekday, Month DD, YYYY at HH:MM:SS AM/PM` of a calendar moment. -/
def rendering (hour minute second day month year : Int) : CString :=
  weekdayName ((daysFromCivil year month day + 4) % 7) ++ ", ".toList
    ++ monthName (month - 1) ++ " ".toList ++ fmt02 day ++ ", ".toList ++ fmtInt year
    ++ " at ".toList ++ fmt02 (hour12 hour) ++ ":".toList ++ fmt02 minute ++ ":".toList
    ++ fmt02 second ++ " ".toList ++ ampm hour

/-- The console text of a successful human-to-markup conversion (lines 187 and 199). -/
def encodeConsole (m : CString) : CString :=
  "Generated Timestamp: ".toList ++ m ++ "\n".toList ++ "Timestamp copied to clipboard.\n".toList

/-- The console text of a successful markup-to-human conversion (line 151). -/
def decodeConsole (cleanInput text : CString) : CString :=
  "Timestamp ".toList ++ cleanInput ++ " corresponds to:\n".toList ++ text ++ "\n".toList

/-! ## Auxiliary notions of the proofs -/

/-- Value of a run of digits read after `acc`. -/
def digitsVal (acc : Nat) (l : CString) : Nat := l.foldl (fun a c => a * 10 + digitVal c) acc

/-- No digit at the head of the string. -/
def NoDigitAhead (rest : CString) : Prop := ∀ c, rest.head? = some c → isdigit c = false

/-- Length of the year that starts on 1 March: the day of the year `doy` is at most 364, or
365 when the following February has 29 days. -/
def DoyOk (yoe doy : Int) : Prop :=
  0 ≤ doy ∧ (doy ≤ 364 ∨
    (doy = 365 ∧ (yoe + 1) % 4 = 0 ∧ ((yoe + 1) % 100 ≠ 0 ∨ (yoe + 1) % 400 = 0)))

/-- Days of the month counted from March: `mp` is 0 for March, 11 for February. -/
def MonthDayOk (yoe mp d : Int) : Prop :=
  0 ≤ mp ∧ mp ≤ 11 ∧ 1 ≤ d ∧
    ((mp = 11 ∧ (d ≤ 28 ∨
        (d = 29 ∧ (yoe + 1) % 4 = 0 ∧ ((yoe + 1) % 100 ≠ 0 ∨ (yoe + 1) % 400 = 0))))
      ∨ ((mp = 1 ∨ mp = 3 ∨ mp = 6 ∨ mp = 8) ∧ d ≤ 30)
      ∨ ((mp = 0 ∨ mp = 2 ∨ mp = 4 ∨ mp = 5 ∨ mp = 7 ∨ mp = 9 ∨ mp = 10) ∧ d ≤ 31))

/-- A date of the Gregorian calendar. -/
def ValidDate (y m d : Int) : Prop := 1 ≤ m ∧ m ≤ 12 ∧ 1 ≤ d ∧ d ≤ daysInMonth y m

/-- The `int` fields of a text `HH:MM:SS DD/MM/YYYY`: every number fits an `int`, and so do
`month - 1` and `year - 1900`. -/
def IntFields (hour minute second day month year : Int) : Prop :=
  (INT_MIN ≤ hour ∧ hour ≤ INT_MAX) ∧ (INT_MIN ≤ minute ∧ minute ≤ INT_MAX)
    ∧ (INT_MIN ≤ second ∧ second ≤ INT_MAX) ∧ (INT_MIN ≤ day ∧ day ≤ INT_MAX)
    ∧ (INT_MIN + 1 ≤ month ∧ month ≤ INT_MAX) ∧ (INT_MIN + 1900 ≤ year ∧ year ≤ INT_MAX)

instance (hour minute second day month year : Int) :
    Decidable (IntFields hour minute second day month year) := by
  unfold IntFields; infer_instance

/-- The broken-down time `localtime` returns for a calendar moment. -/
def tmOfMoment (h mi s d mo y : Int) : Tm :=
  { tm_sec := s, tm_min := mi, tm_hour := h, tm_mday := d, tm_mon := mo - 1,
    tm_year := y - 1900, tm_wday := (daysFromCivil y mo d + 4) % 7,
    tm_yday := daysFromCivil y mo d - daysFromCivil y 1 1, tm_isdst := 0 }

/-- The input consists of six integers `v1:v2:v3 v4/v5/v6` in the sense of the format
`"%d:%d:%d %d/%d/%d"`: each integer may be preceded by white space and a sign, the first
three are separated by `:`, the last three by `/`, and `rest` is the unread text. -/
def ScansTo (s : CString) (v1 v2 v3 v4 v5 v6 : Int) (rest : CString) : Prop :=
  ∃ r1 r2 r3 r4 r5 : CString,
    scanInteger s = some (v1, ':' :: r1) ∧ scanInteger r1 = some (v2, ':' :: r2)
      ∧ scanInteger r2 = some (v3, r3) ∧ scanInteger r3 = some (v4, '/' :: r4)
      ∧ scanInteger r4 = some (v5, '/' :: r5) ∧ scanInteger r5 = some (v6, rest)

/-- The input consists of six integers in the sense of the format `"%d:%d:%d %d/%d/%d"`. -/
def SixIntegers (s : CString) : Prop :=
  ∃ (v1 v2 v3 v4 v5 v6 : Int) (rest : CString), ScansTo s v1 v2 v3 v4 v5 v6 rest

/-- The text `t` is a numeral of `v`: scanning it in front of any text that does not go on
with a digit yields `v` and leaves that text. -/
def Numeral (t : CString) (v : Int) : Prop :=
  ∀ rest, NoDigitAhead rest → scanInteger (t ++ rest) = some (v, rest)

/-- The text `H:M:S<ws>D/M/Y<trailing>` built from six numerals. -/
def sixText (t1 t2 t3 ws t4 t5 t6 trailing : CString) : CString :=
  t1 ++ ':' :: (t2 ++ ':' :: (t3 ++ (ws ++ (t4 ++ '/' :: (t5 ++ '/' :: (t6 ++ trailing))))))

/-- The markup string `<t:n:F>` of an integer `n`. -/
def markupOf (n : Int) : CString := "<t:".toList ++ fmtInt n ++ ":F>".toList

/-- Lines 145-151 on the result of `localtime`: undefined behaviour on a null pointer, else
the rendered time on the console and exit code 0. -/
def decodeResult (cleanInput : CString) (timeinfo : Option Tm) : Run :=
  match timeinfo with
  | none => Run.undefinedBehaviour
  | some tm => Run.exited 0 (decodeConsole cleanInput (strftime tm)) none

/-- The text in which `strtoll` looks for digits: the string without leading white space and
without one sign. -/
def unsignedPart (s : CString) : CString :=
  let body := s.dropWhile isspace
  if body.head? = some '-' ∨ body.head? = some '+' then body.tail else body

/-- The command line after its leading spaces and tabs. -/
def skipBlanks (lpCmdLine : CString) : CString :=
  lpCmdLine.dropWhile fun c => c = ' ' || c = '\t'

/-- The string `s` wrapped in one pair of double quotes. -/
def quoted (s : CString) : CString := dquote :: (s ++ [dquote])

/-! ## Decimal numerals: printing and scanning -/

theorem digitChar_isdigit (d : Nat) (h : d < 10) :
    isdigit (Nat.digitChar d) = true ∧ digitVal (Nat.digitChar d) = d := by
  interval_cases d <;> decide

theorem toDigitsCore_spec (fuel : Nat) : ∀ (n : Nat) (ds : CString), n < fuel →
    ∃ pre : CString, Nat.toDigitsCore 10 fuel n ds = pre ++ ds ∧ pre ≠ [] ∧
      (∀ c ∈ pre, isdigit c = true) ∧ digitsVal 0 pre = n := by
  induction fuel with
  | zero => intro n ds h; omega
  | succ fuel ih =>
    intro n ds h
    have hd := digitChar_isdigit (n % 10) (Nat.mod_lt _ (by decide))
    by_cases h0 : n / 10 = 0
    · refine ⟨[Nat.digitChar (n % 10)], ?_, by simp, ?_, ?_⟩
      · simp [Nat.toDigitsCore, h0]
      · intro c hc
        simp only [List.mem_singleton] at hc
        rw [hc]; exact hd.1
      · simp only [digitsVal, List.foldl, hd.2]
        omega
    · obtain ⟨pre, hpre, -, hall, hval⟩ := ih (n / 10) (Nat.digitChar (n % 10) :: ds) (by omega)
      refine ⟨pre ++ [Nat.digitChar (n % 10)], ?_, by simp, ?_, ?_⟩
      · simp [Nat.toDigitsCore, h0, hpre]
      · intro c hc
        rcases List.mem_append.1 hc with hc | hc
        · exact hall c hc
        · simp only [List.mem_singleton] at hc
          rw [hc]; exact hd.1
      · have : digitsVal 0 (pre ++ [Nat.digitChar (n % 10)])
            = digitsVal 0 pre * 10 + digitVal (Nat.digitChar (n % 10)) := by
          simp [digitsVal, List.foldl_append]
        rw [this, hval, hd.2]
        omega

theorem fmtNat_spec (n : Nat) :
    fmtNat n ≠ [] ∧ (∀ c ∈ fmtNat n, isdigit c = true) ∧ digitsVal 0 (fmtNat n) = n := by
  obtain ⟨pre, hpre, hne, hall, hval⟩ := toDigitsCore_spec (n + 1) n [] (by omega)
  have : fmtNat n = pre := by simp [fmtNat, Nat.toDigits, hpre]
  rw [this]; exact ⟨hne, hall, hval⟩

theorem scanDigits_append (pre : CString) (hall : ∀ c ∈ pre, isdigit c = true)
    (rest : CString) (hrest : NoDigitAhead rest) :
    ∀ acc, scanDigits (pre ++ rest) acc = (digitsVal acc pre, rest) := by
  induction pre with
  | nil =>
    intro acc
    cases rest with
    | nil => simp [scanDigits, digitsVal]
    | cons c cs =>
      have := hrest c (by simp)
      simp [scanDigits, digitsVal, this]
  | cons c cs ih =>
    intro acc
    have hc := hall c (by simp)
    have := ih (fun x hx => hall x (by simp [hx])) (acc * 10 + digitVal c)
    simp [scanDigits, hc, this, digitsVal]

theorem isdigit_not_space (c : Char) (h : isdigit c = true) :
    isspace c = false ∧ c ≠ '-' ∧ c ≠ '+' := by
  refine ⟨?_, ?_, ?_⟩
  · by_contra hs
    simp only [isspace, Bool.not_eq_false, Bool.or_eq_true, decide_eq_true_eq] at hs
    rcases hs with ((((rfl | rfl) | rfl) | rfl) | rfl) | rfl <;> revert h <;> decide
  · rintro rfl; revert h; decide
  · rintro rfl; revert h; decide

/-- Scanning a run of digits followed by a non-digit. -/
theorem scanInteger_digits (pre : CString) (hne : pre ≠ [])
    (hall : ∀ c ∈ pre, isdigit c = true) (rest : CString) (hrest : NoDigitAhead rest) :
    scanInteger (pre ++ rest) = some ((digitsVal 0 pre : Int), rest) := by
  cases pre with
  | nil => exact absurd rfl hne
  | cons c cs =>
    have hc := hall c (by simp)
    obtain ⟨hs, hm, hp⟩ := isdigit_not_space c hc
    have hsd := scanDigits_append (c :: cs) hall rest hrest 0
    simp only [List.cons_append] at hsd
    simp [scanInteger, List.dropWhile, hs, hm, hp, hc, hsd]

/-- Scanning a minus sign and a run of digits followed by a non-digit. -/
theorem scanInteger_neg_digits (pre : CString) (hne : pre ≠ [])
    (hall : ∀ c ∈ pre, isdigit c = true) (rest : CString) (hrest : NoDigitAhead rest) :
    scanInteger ('-' :: (pre ++ rest)) = some (-(digitsVal 0 pre : Int), rest) := by
  cases pre with
  | nil => exact absurd rfl hne
  | cons c cs =>
    have hc := hall c (by simp)
    have hsd := scanDigits_append (c :: cs) hall rest hrest 0
    simp only [List.cons_append] at hsd
    have hsp : isspace '-' = false := by decide
    simp [scanInteger, List.dropWhile, hsp, hc, hsd]

/-- Scanning the numeral that `%d` prints gives the number back. -/
theorem scanInteger_fmtInt (v : Int) (rest : CString) (hrest : NoDigitAhead rest) :
    scanInteger (fmtInt v ++ rest) = some (v, rest) := by
  obtain ⟨hne, hall, hval⟩ := fmtNat_spec v.natAbs
  by_cases hv : v < 0
  · have := scanInteger_neg_digits _ hne hall rest hrest
    simp only [fmtInt, hv, if_true, List.cons_append, this, hval]
    congr 2; omega
  · have := scanInteger_digits _ hne hall rest hrest
    simp only [fmtInt, hv, if_false, this, hval]
    congr 2; omega

/-- Scanning the numeral that `%02d` prints gives the number back. -/
theorem scanInteger_fmt02 (v : Int) (rest : CString) (hrest : NoDigitAhead rest) :
    scanInteger (fmt02 v ++ rest) = some (v, rest) := by
  by_cases h : 0 ≤ v ∧ v < 10
  · obtain ⟨hne, hall, hval⟩ := fmtNat_spec v.natAbs
    have hv : ¬ v < 0 := by omega
    have h0 : isdigit '0' = true := by decide
    have := scanInteger_digits ('0' :: fmtNat v.natAbs) (by simp)
      (by intro c hc; rcases List.mem_cons.1 hc with rfl | hc; exact h0; exact hall c hc)
      rest hrest
    simp only [fmt02, h, and_self, if_true, fmtInt, hv, if_false, this]
    have hz : digitsVal 0 ('0' :: fmtNat v.natAbs) = digitsVal 0 (fmtNat v.natAbs) := by
      simp [digitsVal, digitVal]
    rw [hz, hval]
    congr 2; omega
  · simp only [fmt02, h, if_false]
    exact scanInteger_fmtInt v rest hrest

/-! ## The calendar: `civilFromDays` inverts `daysFromCivil` -/

/-- Year of the era recovered from the day of the era, by century `c`, four-year cycle `a`
and year `b` of the cycle. -/
theorem yoe_recover_aux (c a b doy : Int) (hc0 : 0 ≤ c) (hc3 : c ≤ 3) (ha0 : 0 ≤ a)
    (ha : a ≤ 24) (hb0 : 0 ≤ b) (hb : b ≤ 3) (hd0 : 0 ≤ doy)
    (hd : doy ≤ 364 ∨ (doy = 365 ∧ b = 3 ∧ (a ≠ 24 ∨ c = 3)))
    (D : Int) (hD : D = 36524 * c + 1461 * a + 365 * b + doy) :
    (D - D / 1460 + D / 36524 - D / 146096) / 365 = 100 * c + 4 * a + b := by
  by_cases hlast : c = 3 ∧ a = 24 ∧ b = 3 ∧ doy = 365
  · obtain ⟨rfl, rfl, rfl, rfl⟩ := hlast
    subst hD
    decide
  · have hw : 1461 * a + 365 * b + doy ≤ 36523 := by omega
    have hg : D / 36524 = c := by omega
    have hi : D / 146096 = 0 := by omega
    have hf : D / 1460 = 25 * c + a ∨ D / 1460 = 25 * c + a + 1 := by omega
    rw [hg, hi]
    rcases hf with hf | hf
    · rw [hf]
      have : 24 * c + a + 365 * b + doy < 1460 := by omega
      omega
    · rw [hf]
      have : 24 * c + a + 365 * b + doy ≥ 1460 := by omega
      omega

theorem yoe_recover (yoe doy : Int) (h0 : 0 ≤ yoe) (h1 : yoe ≤ 399) (hd : DoyOk yoe doy)
    (D : Int) (hD : D = yoe * 365 + yoe / 4 - yoe / 100 + doy) :
    0 ≤ D ∧ D ≤ 146096 ∧ (D - D / 1460 + D / 36524 - D / 146096) / 365 = yoe := by
  obtain ⟨hd0, hd⟩ := hd
  have key := yoe_recover_aux (yoe / 100) (yoe % 100 / 4) (yoe % 4) doy (by omega) (by omega)
    (by omega) (by omega) (by omega) (by omega) hd0 (by omega) D (by omega)
  refine ⟨by omega, by omega, ?_⟩
  rw [key]; omega

theorem month_recover (yoe mp d : Int) (h : MonthDayOk yoe mp d)
    (doy : Int) (hdoy : doy = (153 * mp + 2) / 5 + d - 1) :
    DoyOk yoe doy ∧ (5 * doy + 2) / 153 = mp ∧ doy - (153 * mp + 2) / 5 + 1 = d := by
  obtain ⟨h0, h11, hd1, h⟩ := h
  have hmp : mp = 0 ∨ mp = 1 ∨ mp = 2 ∨ mp = 3 ∨ mp = 4 ∨ mp = 5 ∨ mp = 6 ∨ mp = 7 ∨ mp = 8
      ∨ mp = 9 ∨ mp = 10 ∨ mp = 11 := by omega
  unfold DoyOk
  rcases hmp with rfl | rfl | rfl | rfl | rfl | rfl | rfl | rfl | rfl | rfl | rfl | rfl <;>
    norm_num at hdoy h ⊢ <;> omega

/-- The date of a day number composed from era, year of the era, month and day. -/
theorem civilFromDays_compose (era yoe mp d : Int) (h0 : 0 ≤ yoe) (h1 : yoe ≤ 399)
    (h : MonthDayOk yoe mp d) :
    civilFromDays (era * 146097 + (yoe * 365 + yoe / 4 - yoe / 100
        + ((153 * mp + 2) / 5 + d - 1)) - 719468)
      = (if (if mp < 10 then mp + 3 else mp - 9) ≤ 2 then yoe + era * 400 + 1
          else yoe + era * 400, if mp < 10 then mp + 3 else mp - 9, d) := by
  obtain ⟨doy, hdoy⟩ : ∃ doy, doy = (153 * mp + 2) / 5 + d - 1 := ⟨_, rfl⟩
  obtain ⟨hok, hmp, hdd⟩ := month_recover yoe mp d h doy hdoy
  obtain ⟨D, hD⟩ : ∃ D, D = yoe * 365 + yoe / 4 - yoe / 100 + doy := ⟨_, rfl⟩
  obtain ⟨hD0, hD1, hy⟩ := yoe_recover yoe doy h0 h1 hok D hD
  rw [← hdoy, ← hD]
  have e1 : (era * 146097 + D - 719468 + 719468) / 146097 = era := by omega
  have e2 : era * 146097 + D - 719468 + 719468 - era * 146097 = D := by omega
  have e3 : D - (365 * yoe + yoe / 4 - yoe / 100) = doy := by omega
  simp only [civilFromDays, e1, e2, hy, e3, hmp, hdd]

theorem daysFromCivil_eq (y m d : Int) :
    daysFromCivil y m d
      = ((if m ≤ 2 then y - 1 else y) / 400) * 146097
        + (((if m ≤ 2 then y - 1 else y) - (if m ≤ 2 then y - 1 else y) / 400 * 400) * 365
          + ((if m ≤ 2 then y - 1 else y) - (if m ≤ 2 then y - 1 else y) / 400 * 400) / 4
          - ((if m ≤ 2 then y - 1 else y) - (if m ≤ 2 then y - 1 else y) / 400 * 400) / 100
          + ((153 * (if m > 2 then m - 3 else m + 9) + 2) / 5 + d - 1)) - 719468 := rfl

theorem monthDayOk_of_valid (y m d : Int) (h : ValidDate y m d) :
    MonthDayOk ((if m ≤ 2 then y - 1 else y) - (if m ≤ 2 then y - 1 else y) / 400 * 400)
      (if m > 2 then m - 3 else m + 9) d := by
  obtain ⟨hm1, hm12, hd1, hd⟩ := h
  have hm : m = 1 ∨ m = 2 ∨ m = 3 ∨ m = 4 ∨ m = 5 ∨ m = 6 ∨ m = 7 ∨ m = 8 ∨ m = 9
      ∨ m = 10 ∨ m = 11 ∨ m = 12 := by omega
  unfold MonthDayOk
  rcases hm with rfl | rfl | rfl | rfl | rfl | rfl | rfl | rfl | rfl | rfl | rfl | rfl
  case inr.inl =>
    by_cases hl : isLeapYear y = true
    · simp only [daysInMonth, hl] at hd
      simp only [isLeapYear, Bool.and_eq_true, Bool.or_eq_true, decide_eq_true_eq,
        bne_iff_ne, ne_eq, Bool.not_eq_true', decide_eq_false_iff_not] at hl
      norm_num at hd ⊢
      omega
    · simp only [daysInMonth, hl] at hd
      norm_num at hd ⊢
      omega
  all_goals
    simp only [daysInMonth] at hd
    norm_num at hd ⊢
    omega

/-- The main calendar fact: `civilFromDays` is a left inverse of `daysFromCivil` on the dates of
the calendar. -/
theorem civilFromDays_daysFromCivil (y m d : Int) (h : ValidDate y m d) :
    civilFromDays (daysFromCivil y m d) = (y, m, d) := by
  have hmd := monthDayOk_of_valid y m d h
  obtain ⟨hm1, hm12, -, -⟩ := h
  rw [daysFromCivil_eq, civilFromDays_compose _ _ _ _ (by omega) (by omega) hmd]
  by_cases hm : m ≤ 2
  · have h1 : ¬ m > 2 := by omega
    have h2 : ¬ m + 9 < 10 := by omega
    simp only [hm, h1, h2, if_true, if_false]
    have h3 : m + 9 - 9 = m := by omega
    simp only [h3, hm, if_true]
    congr 1; omega
  · have h1 : m > 2 := by omega
    have h2 : m - 3 < 10 := by omega
    simp only [hm, h1, h2, if_true, if_false]
    have h3 : m - 3 + 3 = m := by omega
    simp only [h3, hm, if_false]
    congr 1; omega

theorem month_split (yoe doy : Int) (h : DoyOk yoe doy) :
    ∃ mp d, MonthDayOk yoe mp d ∧ doy = (153 * mp + 2) / 5 + d - 1 := by
  obtain ⟨h0, h⟩ := h
  refine ⟨(5 * doy + 2) / 153, doy - (153 * ((5 * doy + 2) / 153) + 2) / 5 + 1, ?_, by omega⟩
  obtain ⟨mp, hmp⟩ : ∃ mp, mp = (5 * doy + 2) / 153 := ⟨_, rfl⟩
  rw [← hmp]
  have hcases : mp = 0 ∨ mp = 1 ∨ mp = 2 ∨ mp = 3 ∨ mp = 4 ∨ mp = 5 ∨ mp = 6 ∨ mp = 7
      ∨ mp = 8 ∨ mp = 9 ∨ mp = 10 ∨ mp = 11 := by omega
  unfold MonthDayOk
  rcases hcases with e | e | e | e | e | e | e | e | e | e | e | e <;>
    (rw [e] at hmp ⊢; norm_num; omega)

theorem era_split (z : Int) :
    ∃ era yoe doy, 0 ≤ yoe ∧ yoe ≤ 399 ∧ DoyOk yoe doy ∧
      z = era * 146097 + (yoe * 365 + yoe / 4 - yoe / 100 + doy) - 719468 := by
  obtain ⟨era, hera⟩ : ∃ era, era = (z + 719468) / 146097 := ⟨_, rfl⟩
  obtain ⟨doe, hdoe⟩ : ∃ doe, doe = z + 719468 - era * 146097 := ⟨_, rfl⟩
  have hd0 : 0 ≤ doe := by omega
  have hd1 : doe ≤ 146096 := by omega
  obtain ⟨c, hc⟩ : ∃ c, c = if doe / 36524 ≤ 3 then doe / 36524 else 3 := ⟨_, rfl⟩
  have hc0 : 0 ≤ c := by split_ifs at hc <;> omega
  have hc3 : c ≤ 3 := by split_ifs at hc <;> omega
  obtain ⟨r1, hr1⟩ : ∃ r1, r1 = doe - 36524 * c := ⟨_, rfl⟩
  have hr10 : 0 ≤ r1 := by split_ifs at hc <;> omega
  have hr11 : r1 ≤ 36523 ∨ (r1 = 36524 ∧ c = 3) := by split_ifs at hc <;> omega
  obtain ⟨a, ha⟩ : ∃ a, a = if r1 / 1461 ≤ 24 then r1 / 1461 else 24 := ⟨_, rfl⟩
  have ha0 : 0 ≤ a := by split_ifs at ha <;> omega
  have ha24 : a ≤ 24 := by split_ifs at ha <;> omega
  obtain ⟨r2, hr2⟩ : ∃ r2, r2 = r1 - 1461 * a := ⟨_, rfl⟩
  have hr20 : 0 ≤ r2 := by split_ifs at ha <;> omega
  have hr21 : r2 ≤ 1459 ∨ (r2 = 1460 ∧ (a ≠ 24 ∨ c = 3)) := by split_ifs at ha <;> omega
  obtain ⟨b, hb⟩ : ∃ b, b = if r2 / 365 ≤ 3 then r2 / 365 else 3 := ⟨_, rfl⟩
  have hb0 : 0 ≤ b := by split_ifs at hb <;> omega
  have hb3 : b ≤ 3 := by split_ifs at hb <;> omega
  obtain ⟨doy, hdoy⟩ : ∃ doy, doy = r2 - 365 * b := ⟨_, rfl⟩
  have hdoy0 : 0 ≤ doy := by split_ifs at hb <;> omega
  have hdoy1 : doy ≤ 364 ∨ (doy = 365 ∧ b = 3 ∧ (a ≠ 24 ∨ c = 3)) := by
    split_ifs at hb <;> omega
  refine ⟨era, 100 * c + 4 * a + b, doy, by omega, by omega, ⟨hdoy0, by omega⟩, by omega⟩

/-- Every day number is the day number of a date of the calendar, and `civilFromDays` finds
it: `civilFromDays` is also a right inverse of `daysFromCivil`. -/
theorem daysFromCivil_civilFromDays (z : Int) :
    ValidDate (civilFromDays z).1 (civilFromDays z).2.1 (civilFromDays z).2.2
      ∧ daysFromCivil (civilFromDays z).1 (civilFromDays z).2.1 (civilFromDays z).2.2 = z := by
  obtain ⟨era, yoe, doy, h0, h1, hok, hz⟩ := era_split z
  obtain ⟨mp, d, hmd, hdoy⟩ := month_split yoe doy hok
  have hc := civilFromDays_compose era yoe mp d h0 h1 hmd
  rw [← hdoy, ← hz] at hc
  rw [hc]
  obtain ⟨hmp0, hmp11, hd1, hlen⟩ := hmd
  by_cases hlt : mp < 10
  · have h2 : ¬ mp + 3 ≤ 2 := by omega
    simp only [hlt, h2, if_true, if_false]
    constructor
    · refine ⟨by omega, by omega, hd1, ?_⟩
      have hcases : mp = 0 ∨ mp = 1 ∨ mp = 2 ∨ mp = 3 ∨ mp = 4 ∨ mp = 5 ∨ mp = 6 ∨ mp = 7
          ∨ mp = 8 ∨ mp = 9 := by omega
      rcases hcases with e | e | e | e | e | e | e | e | e | e <;>
        (subst e; simp only [daysInMonth]; norm_num at hlen ⊢; omega)
    · rw [daysFromCivil_eq]
      have h3 : mp + 3 > 2 := by omega
      simp only [h2, h3, if_true, if_false]
      have h4 : mp + 3 - 3 = mp := by omega
      have h5 : (yoe + era * 400) / 400 = era := by omega
      rw [h4, h5]
      have h6 : yoe + era * 400 - era * 400 = yoe := by omega
      rw [h6]; omega
  · have hmp : mp = 10 ∨ mp = 11 := by omega
    have h2 : mp - 9 ≤ 2 := by omega
    simp only [hlt, h2, if_true, if_false]
    constructor
    · refine ⟨by omega, by omega, hd1, ?_⟩
      rcases hmp with e | e
      · subst e; simp only [daysInMonth]; norm_num at hlen ⊢; omega
      · subst e
        by_cases hl : isLeapYear (yoe + era * 400 + 1) = true
        · simp only [daysInMonth, hl]; norm_num at hlen ⊢; omega
        · simp only [daysInMonth, hl]
          simp only [isLeapYear, Bool.and_eq_true, Bool.or_eq_true, decide_eq_true_eq,
            bne_iff_ne, ne_eq, Bool.not_eq_true', decide_eq_false_iff_not] at hl
          norm_num at hlen ⊢
          omega
    · rw [daysFromCivil_eq]
      have h3 : ¬ mp - 9 > 2 := by omega
      simp only [h2, h3, if_true, if_false]
      have h4 : mp - 9 + 9 = mp := by omega
      have h5 : (yoe + era * 400 + 1 - 1) / 400 = era := by omega
      rw [h4, h5]
      have h6 : yoe + era * 400 + 1 - 1 - era * 400 = yoe := by omega
      rw [h6]; omega

/-! ## `mktime`, `localtime` and `strftime` on calendar moments -/

theorem wrapInt32_id (v : Int) (h0 : INT_MIN ≤ v) (h1 : v ≤ INT_MAX) : wrapInt32 v = v := by
  unfold wrapInt32
  unfold INT_MIN at h0
  unfold INT_MAX at h1
  omega

theorem wrapInt32_range (v : Int) : INT_MIN ≤ wrapInt32 v ∧ wrapInt32 v ≤ INT_MAX := by
  unfold wrapInt32 INT_MIN INT_MAX
  omega

/-- The day number is linear in the day of the month. -/
theorem daysFromCivil_day (y m d : Int) :
    daysFromCivil y m 1 + (d - 1) = daysFromCivil y m d := by
  rw [daysFromCivil_eq, daysFromCivil_eq]; omega

/-- A coarse bound of the day number by the year. -/
theorem daysFromCivil_bound (y m : Int) (hm1 : 1 ≤ m) (hm12 : m ≤ 12)
    (hy0 : -2400000000 ≤ y) (hy1 : y ≤ 2400000000) :
    -900000000000 ≤ daysFromCivil y m 1 ∧ daysFromCivil y m 1 ≤ 900000000000 := by
  rw [daysFromCivil_eq]
  split_ifs <;> omega

/-- In the model of `mktime` the number of seconds always fits the 64-bit `time_t`, the
fields being `int`s: the result is that number when the library converts it, else -1. -/
theorem mktime_eq (lib : CLib) (tm : Tm)
    (hsec : INT_MIN ≤ tm.tm_sec ∧ tm.tm_sec ≤ INT_MAX)
    (hmin : INT_MIN ≤ tm.tm_min ∧ tm.tm_min ≤ INT_MAX)
    (hhour : INT_MIN ≤ tm.tm_hour ∧ tm.tm_hour ≤ INT_MAX)
    (hmday : INT_MIN ≤ tm.tm_mday ∧ tm.tm_mday ≤ INT_MAX)
    (hmon : INT_MIN ≤ tm.tm_mon ∧ tm.tm_mon ≤ INT_MAX)
    (hyear : INT_MIN ≤ tm.tm_year ∧ tm.tm_year ≤ INT_MAX) :
    mktime lib tm =
      if lib.Converts ((daysFromCivil (tm.tm_year + 1900 + tm.tm_mon / 12)
          (tm.tm_mon % 12 + 1) 1 + (tm.tm_mday - 1)) * 86400 + tm.tm_hour * 3600
          + tm.tm_min * 60 + tm.tm_sec)
      then (daysFromCivil (tm.tm_year + 1900 + tm.tm_mon / 12) (tm.tm_mon % 12 + 1) 1
          + (tm.tm_mday - 1)) * 86400 + tm.tm_hour * 3600 + tm.tm_min * 60 + tm.tm_sec
      else -1 := by
  unfold INT_MIN INT_MAX at *
  have hb := daysFromCivil_bound (tm.tm_year + 1900 + tm.tm_mon / 12) (tm.tm_mon % 12 + 1)
    (by omega) (by omega) (by omega) (by omega)
  have hr : LLONG_MIN ≤ (daysFromCivil (tm.tm_year + 1900 + tm.tm_mon / 12)
        (tm.tm_mon % 12 + 1) 1 + (tm.tm_mday - 1)) * 86400 + tm.tm_hour * 3600
        + tm.tm_min * 60 + tm.tm_sec
      ∧ (daysFromCivil (tm.tm_year + 1900 + tm.tm_mon / 12) (tm.tm_mon % 12 + 1) 1
        + (tm.tm_mday - 1)) * 86400 + tm.tm_hour * 3600 + tm.tm_min * 60 + tm.tm_sec
        ≤ LLONG_MAX := by
    unfold LLONG_MIN LLONG_MAX
    constructor <;> omega
  unfold mktime
  simp only [hr, and_self, and_true]

theorem mktime_fieldsToTm (lib : CLib) (h mi s d mo y : Int) (hf : IntFields h mi s d mo y) :
    mktime lib (fieldsToTm h mi s d mo y) =
      if lib.Converts (epochSeconds h mi s d mo y) then epochSeconds h mi s d mo y
      else -1 := by
  obtain ⟨hh, hmi, hs, hd, hmo, hy⟩ := hf
  have e1 : wrapInt32 (mo - 1) = mo - 1 := wrapInt32_id _ (by omega) (by omega)
  have e2 : wrapInt32 (y - 1900) = y - 1900 := wrapInt32_id _ (by omega) (by omega)
  rw [mktime_eq]
  · simp only [fieldsToTm, e1, e2, epochSeconds]
    have : y - 1900 + 1900 = y := by omega
    rw [this]
  all_goals simp only [fieldsToTm, e1, e2]
  all_goals first | assumption | (constructor <;> omega)

theorem validMoment_intFields (h mi s d mo y : Int) (hv : ValidMoment h mi s d mo y)
    (hy : INT_MIN + 1900 ≤ y ∧ y ≤ INT_MAX) : IntFields h mi s d mo y := by
  obtain ⟨h0, h1, h2, h3, h4, h5, h6, h7, h8, h9⟩ := hv
  have : daysInMonth y mo ≤ 31 := by
    unfold daysInMonth; split_ifs <;> omega
  unfold IntFields INT_MIN INT_MAX
  unfold INT_MIN INT_MAX at hy
  omega

theorem epochSeconds_valid (h mi s d mo y : Int) (hv : ValidMoment h mi s d mo y) :
    epochSeconds h mi s d mo y = daysFromCivil y mo d * 86400 + (h * 3600 + mi * 60 + s) := by
  obtain ⟨h0, h1, h2, h3, h4, h5, h6, h7, h8, h9⟩ := hv
  have e1 : (mo - 1) / 12 = 0 := by omega
  have e2 : (mo - 1) % 12 + 1 = mo := by omega
  simp only [epochSeconds, e1, e2, add_zero, daysFromCivil_day]
  omega

/-- The function `localtime` inverts the epoch seconds of a valid moment. -/
theorem localtime_epochSeconds (lib : CLib) (h mi s d mo y : Int)
    (hv : ValidMoment h mi s d mo y) (hy : INT_MIN ≤ y - 1900 ∧ y - 1900 ≤ INT_MAX)
    (hconv : lib.Converts (epochSeconds h mi s d mo y)) :
    localtime lib (epochSeconds h mi s d mo y) = some (tmOfMoment h mi s d mo y) := by
  rw [epochSeconds_valid h mi s d mo y hv] at hconv ⊢
  obtain ⟨h0, h1, h2, h3, h4, h5, h6, h7, h8, h9⟩ := hv
  have hc := civilFromDays_daysFromCivil y mo d ⟨h6, h7, h8, h9⟩
  obtain ⟨D, hD⟩ : ∃ D, D = daysFromCivil y mo d := ⟨_, rfl⟩
  rw [← hD] at hc
  have e1 : (D * 86400 + (h * 3600 + mi * 60 + s)) / 86400 = D := by omega
  have e2 : (D * 86400 + (h * 3600 + mi * 60 + s)) % 86400 = h * 3600 + mi * 60 + s := by
    omega
  have e3 : (h * 3600 + mi * 60 + s) % 60 = s := by omega
  have e4 : (h * 3600 + mi * 60 + s) / 60 % 60 = mi := by omega
  have e5 : (h * 3600 + mi * 60 + s) / 3600 = h := by omega
  rw [← hD] at hconv
  simp only [localtime, tmOfMoment, ← hD, e1, e2, e3, e4, e5, hc, hy, hconv, and_self,
    if_true]

theorem strftime_tmOfMoment (h mi s d mo y : Int) :
    strftime (tmOfMoment h mi s d mo y) = rendering h mi s d mo y := by
  have : y - 1900 + 1900 = y := by omega
  simp only [strftime, tmOfMoment, rendering, this]

/-! ## Scanning with the format `"%d:%d:%d %d/%d/%d"` -/

theorem scanInteger_dropSpace (s : CString) :
    scanInteger (s.dropWhile isspace) = scanInteger s := by
  unfold scanInteger
  simp only [List.dropWhile_idempotent]

theorem scanInteger_nil : scanInteger [] = none := by decide

theorem scanInteger_some_ne (s : CString) (r : Int × CString) (h : scanInteger s = some r) :
    s.dropWhile isspace ≠ [] := by
  intro hnil
  rw [← scanInteger_dropSpace, hnil, scanInteger_nil] at h
  exact Option.noConfusion h

theorem sscanfHuman_of_scansTo (s : CString) (v1 v2 v3 v4 v5 v6 : Int) (rest : CString)
    (h : ScansTo s v1 v2 v3 v4 v5 v6 rest) :
    sscanfHuman s = [wrapInt32 v1, wrapInt32 v2, wrapInt32 v3, wrapInt32 v4, wrapInt32 v5,
      wrapInt32 v6] := by
  obtain ⟨r1, r2, r3, r4, r5, h1, h2, h3, h4, h5, h6⟩ := h
  simp [sscanfHuman, humanFormat, scanfRun, h1, h2, h3, scanInteger_dropSpace, h4, h5, h6]

theorem scansTo_of_length (s : CString) (h : (sscanfHuman s).length = 6) : SixIntegers s := by
  unfold sscanfHuman humanFormat at h
  simp only [scanfRun] at h
  cases h1 : scanInteger s with
  | none => simp [h1] at h
  | some q1 =>
    obtain ⟨v1, t1⟩ := q1
    simp only [h1] at h
    cases t1 with
    | nil => simp at h
    | cons c1 r1 =>
      simp only at h
      by_cases hc1 : c1 = ':'
      swap
      · simp [hc1] at h
      subst hc1
      simp only [if_true] at h
      cases h2 : scanInteger r1 with
      | none => simp [h2] at h
      | some q2 =>
        obtain ⟨v2, t2⟩ := q2
        simp only [h2] at h
        cases t2 with
        | nil => simp at h
        | cons c2 r2 =>
          simp only at h
          by_cases hc2 : c2 = ':'
          swap
          · simp [hc2] at h
          subst hc2
          simp only [if_true] at h
          cases h3 : scanInteger r2 with
          | none => simp [h3] at h
          | some q3 =>
            obtain ⟨v3, r3⟩ := q3
            simp only [h3, scanInteger_dropSpace] at h
            cases h4 : scanInteger r3 with
            | none => simp [h4] at h
            | some q4 =>
              obtain ⟨v4, t4⟩ := q4
              simp only [h4] at h
              cases t4 with
              | nil => simp at h
              | cons c4 r4 =>
                simp only at h
                by_cases hc4 : c4 = '/'
                swap
                · simp [hc4] at h
                subst hc4
                simp only [if_true] at h
                cases h5 : scanInteger r4 with
                | none => simp [h5] at h
                | some q5 =>
                  obtain ⟨v5, t5⟩ := q5
                  simp only [h5] at h
                  cases t5 with
                  | nil => simp at h
                  | cons c5 r5 =>
                    simp only at h
                    by_cases hc5 : c5 = '/'
                    swap
                    · simp [hc5] at h
                    subst hc5
                    simp only [if_true] at h
                    cases h6 : scanInteger r5 with
                    | none => simp [h6] at h
                    | some q6 =>
                      obtain ⟨v6, r6⟩ := q6
                      exact ⟨v1, v2, v3, v4, v5, v6, r6, r1, r2, r3, r4, r5,
                        h1, h2, h3, h4, h5, h6⟩

/-- The number of items `sscanf` assigns is six exactly on the inputs that consist of six
integers. -/
theorem itemsParsed_eq_six_iff (s : CString) : itemsParsed s = 6 ↔ SixIntegers s := by
  constructor
  · intro h
    unfold itemsParsed at h
    split_ifs at h with hnil
    exact scansTo_of_length s (by exact_mod_cast h)
  · rintro ⟨v1, v2, v3, v4, v5, v6, rest, h⟩
    have hs := sscanfHuman_of_scansTo s v1 v2 v3 v4 v5 v6 rest h
    obtain ⟨r1, -, -, -, -, h1, -⟩ := h
    have hne := scanInteger_some_ne s _ h1
    simp [itemsParsed, hne, hs]

/-- The human-readable branch on an input of six integers. -/
theorem encodeHuman_of_scansTo (lib : CLib) (s : CString) (v1 v2 v3 v4 v5 v6 : Int)
    (rest : CString) (h : ScansTo s v1 v2 v3 v4 v5 v6 rest) :
    encodeHuman lib s =
      if mktime lib (fieldsToTm (wrapInt32 v1) (wrapInt32 v2) (wrapInt32 v3) (wrapInt32 v4)
          (wrapInt32 v5) (wrapInt32 v6)) = -1 then Run.exited 1 dateErrorText none
      else Run.exited 0
        (encodeConsole (markup (mktime lib (fieldsToTm (wrapInt32 v1) (wrapInt32 v2)
          (wrapInt32 v3) (wrapInt32 v4) (wrapInt32 v5) (wrapInt32 v6)))))
        (some (markup (mktime lib (fieldsToTm (wrapInt32 v1) (wrapInt32 v2)
          (wrapInt32 v3) (wrapInt32 v4) (wrapInt32 v5) (wrapInt32 v6))))) := by
  have h6 : itemsParsed s = 6 := (itemsParsed_eq_six_iff s).2 ⟨_, _, _, _, _, _, _, h⟩
  have hs := sscanfHuman_of_scansTo s v1 v2 v3 v4 v5 v6 rest h
  simp only [encodeHuman, h6, hs, ne_eq, not_true_eq_false, if_false, encodeConsole]

/-- The human-readable branch reports the format error exactly when the input does not
consist of six integers. -/
theorem encodeHuman_formatError_iff (lib : CLib) (s : CString) :
    encodeHuman lib s = Run.exited 1 formatErrorText none ↔ ¬ SixIntegers s := by
  constructor
  · rintro h ⟨v1, v2, v3, v4, v5, v6, rest, hsc⟩
    rw [encodeHuman_of_scansTo lib s v1 v2 v3 v4 v5 v6 rest hsc] at h
    split_ifs at h
    · have : dateErrorText = formatErrorText := by injection h
      revert this; decide
    · have : (0 : Int) = 1 := by injection h
      omega
  · intro h
    have : itemsParsed s ≠ 6 := fun h6 => h ((itemsParsed_eq_six_iff s).1 h6)
    simp [encodeHuman, this]

/-! ## The shape of printed numerals -/

theorem fmtNat_length (n e : Nat) (he : 0 < e) (h : n < 10 ^ e) : (fmtNat n).length ≤ e :=
  Nat.toDigitsCore_length 10 (by decide) (n + 1) n e h he

theorem fmtInt_length (v : Int) (h0 : LLONG_MIN ≤ v) (h1 : v ≤ LLONG_MAX) :
    (fmtInt v).length ≤ 20 := by
  unfold LLONG_MIN at h0
  unfold LLONG_MAX at h1
  have := fmtNat_length v.natAbs 19 (by decide) (by norm_num; omega)
  unfold fmtInt
  split_ifs
  · simp only [List.length_cons]; omega
  · omega

theorem fmtInt_length_int (v : Int) (h0 : INT_MIN ≤ v) (h1 : v ≤ INT_MAX) :
    (fmtInt v).length ≤ 11 := by
  unfold INT_MIN at h0
  unfold INT_MAX at h1
  have := fmtNat_length v.natAbs 10 (by decide) (by norm_num; omega)
  unfold fmtInt
  split_ifs
  · simp only [List.length_cons]; omega
  · omega

theorem fmt02_length_int (v : Int) (h0 : INT_MIN ≤ v) (h1 : v ≤ INT_MAX) :
    (fmt02 v).length ≤ 11 := by
  unfold fmt02
  split_ifs with h
  · have := fmtNat_length v.natAbs 1 (by decide) (by norm_num; omega)
    have hv : ¬ v < 0 := by omega
    simp only [fmtInt, hv, if_false, List.length_cons]
    omega
  · exact fmtInt_length_int v h0 h1

/-- A printed integer starts with a digit or a minus sign. -/
theorem fmtInt_cons (v : Int) :
    ∃ c rest, fmtInt v = c :: rest ∧ (isdigit c = true ∨ c = '-') := by
  obtain ⟨hne, hall, -⟩ := fmtNat_spec v.natAbs
  unfold fmtInt
  split_ifs
  · exact ⟨'-', _, rfl, Or.inr rfl⟩
  · cases hc : fmtNat v.natAbs with
    | nil => exact absurd hc hne
    | cons c rest => exact ⟨c, rest, rfl, Or.inl (hall c (by simp [hc]))⟩

theorem fmt02_cons (v : Int) :
    ∃ c rest, fmt02 v = c :: rest ∧ (isdigit c = true ∨ c = '-') := by
  unfold fmt02
  split_ifs
  · exact ⟨'0', _, rfl, Or.inl (by decide)⟩
  · exact fmtInt_cons v

/-- A printed integer ends with a digit. -/
theorem fmtInt_getLast (v : Int) :
    ∃ c, (fmtInt v).getLast? = some c ∧ isdigit c = true := by
  obtain ⟨hne, hall, -⟩ := fmtNat_spec v.natAbs
  obtain ⟨c, hc⟩ : ∃ c, (fmtNat v.natAbs).getLast? = some c := by
    cases h : (fmtNat v.natAbs).getLast? with
    | none => exact absurd (List.getLast?_eq_none_iff.1 h) hne
    | some c => exact ⟨c, rfl⟩
  have hd := hall c (List.mem_of_getLast?_eq_some hc)
  refine ⟨c, ?_, hd⟩
  unfold fmtInt
  split_ifs
  · have : ('-' :: fmtNat v.natAbs) = ['-'] ++ fmtNat v.natAbs := rfl
    rw [this, List.getLast?_append, hc]; rfl
  · exact hc

theorem signOrDigit_facts (c : Char) (h : isdigit c = true ∨ c = '-') :
    c ≠ ' ' ∧ c ≠ '\t' ∧ c ≠ dquote ∧ c ≠ '<' ∧ isspace c = false := by
  rcases h with h | rfl
  · refine ⟨?_, ?_, ?_, ?_, (isdigit_not_space c h).1⟩ <;>
      (rintro rfl; revert h; decide)
  · decide

theorem isdigit_ne_dquote (c : Char) (h : isdigit c = true) : c ≠ dquote := by
  rintro rfl; revert h; decide

theorem numeral_fmtInt (v : Int) : Numeral (fmtInt v) v :=
  fun rest h => scanInteger_fmtInt v rest h

theorem numeral_fmt02 (v : Int) : Numeral (fmt02 v) v :=
  fun rest h => scanInteger_fmt02 v rest h

/-! ## Input sanitation on well-shaped texts -/

theorem sanitize_id (s : CString)
    (hh : ∀ c, s.head? = some c → c ≠ ' ' ∧ c ≠ '\t' ∧ c ≠ dquote)
    (hl : s.getLast? ≠ some dquote) (hlen : s.length ≤ 255) : sanitize s = s := by
  have h1 : s.dropWhile (fun c => c = ' ' || c = '\t') = s := by
    cases s with
    | nil => rfl
    | cons c cs =>
      obtain ⟨h1, h2, -⟩ := hh c rfl
      simp [List.dropWhile, h1, h2]
  have h2 : s.head? ≠ some dquote := fun h => (hh dquote h).2.2 rfl
  simp only [sanitize, h1, List.take_of_length_le hlen, h2, hl, if_false]

theorem RunReadMode_clean (lib : CLib) (s : CString) (hs : sanitize s = s) :
    RunReadMode lib s =
      if s.take 3 = "<t:".toList then decodeMarkup lib s else encodeHuman lib s := by
  simp only [RunReadMode, hs]

/-! ## Six printed integers are scanned back -/

theorem noDigitAhead_cons (c : Char) (s : CString) (h : isdigit c = false) :
    NoDigitAhead (c :: s) := by
  intro x hx
  simp only [List.head?_cons, Option.some.injEq] at hx
  rw [← hx]; exact h

theorem noDigitAhead_nil : NoDigitAhead [] := by
  intro x hx; simp at hx

theorem scanInteger_spaces (ws s : CString) (hws : ∀ c ∈ ws, isspace c = true) :
    scanInteger (ws ++ s) = scanInteger s := by
  rw [← scanInteger_dropSpace (ws ++ s), List.dropWhile_append_of_pos hws,
    scanInteger_dropSpace]

theorem noDigitAhead_spaces (ws s : CString) (hws : ∀ c ∈ ws, isspace c = true)
    (hne : ws ≠ []) : NoDigitAhead (ws ++ s) := by
  cases ws with
  | nil => exact absurd rfl hne
  | cons c cs =>
    have hc := hws c (by simp)
    apply noDigitAhead_cons
    cases hd : isdigit c with
    | false => rfl
    | true => rw [(isdigit_not_space c hd).1] at hc; exact Bool.noConfusion hc

/-- Six numerals separated by `:`, `:`, a non-empty run of white space, `/` and `/`, followed
by any text that does not go on with a digit, are scanned as their six values. -/
theorem scansTo_sixText (t1 t2 t3 ws t4 t5 t6 trailing : CString) (v1 v2 v3 v4 v5 v6 : Int)
    (n1 : Numeral t1 v1) (n2 : Numeral t2 v2) (n3 : Numeral t3 v3) (n4 : Numeral t4 v4)
    (n5 : Numeral t5 v5) (n6 : Numeral t6 v6) (hws : ∀ c ∈ ws, isspace c = true)
    (hne : ws ≠ []) (htr : NoDigitAhead trailing) :
    ScansTo (sixText t1 t2 t3 ws t4 t5 t6 trailing) v1 v2 v3 v4 v5 v6 trailing := by
  have hcolon : isdigit ':' = false := by decide
  have hslash : isdigit '/' = false := by decide
  refine ⟨_, _, _, _, _, n1 _ (noDigitAhead_cons _ _ hcolon),
    n2 _ (noDigitAhead_cons _ _ hcolon), n3 _ (noDigitAhead_spaces ws _ hws hne), ?_,
    n5 _ (noDigitAhead_cons _ _ hslash), n6 _ htr⟩
  rw [scanInteger_spaces ws _ hws]
  exact n4 _ (noDigitAhead_cons _ _ hslash)

theorem humanText_eq_sixText (h mi s d mo y : Int) :
    humanText h mi s d mo y
      = sixText (fmt02 h) (fmt02 mi) (fmt02 s) [' '] (fmt02 d) (fmt02 mo) (fmtInt y) [] := by
  simp [humanText, sixText]

theorem scansTo_humanText (h mi s d mo y : Int) :
    ScansTo (humanText h mi s d mo y) h mi s d mo y [] := by
  rw [humanText_eq_sixText]
  exact scansTo_sixText _ _ _ _ _ _ _ _ _ _ _ _ _ _ (numeral_fmt02 h) (numeral_fmt02 mi)
    (numeral_fmt02 s) (numeral_fmt02 d) (numeral_fmt02 mo) (numeral_fmtInt y)
    (by decide) (by decide) noDigitAhead_nil

theorem sanitize_humanText (h mi s d mo y : Int) (hf : IntFields h mi s d mo y) :
    sanitize (humanText h mi s d mo y) = humanText h mi s d mo y
      ∧ (humanText h mi s d mo y).take 3 ≠ "<t:".toList := by
  obtain ⟨hh, hmi, hs, hd, hmo, hy⟩ := hf
  obtain ⟨c, rest, hc, hcd⟩ := fmt02_cons h
  obtain ⟨h1, h2, h3, h4, -⟩ := signOrDigit_facts c hcd
  obtain ⟨l, hl, hld⟩ := fmtInt_getLast y
  have hhead : (humanText h mi s d mo y).head? = some c := by
    simp [humanText, hc]
  constructor
  · apply sanitize_id
    · intro x hx
      rw [hhead] at hx
      injection hx with hx
      subst hx
      exact ⟨h1, h2, h3⟩
    · have : (humanText h mi s d mo y).getLast? = some l := by
        have e : humanText h mi s d mo y
            = (fmt02 h ++ ":".toList ++ fmt02 mi ++ ":".toList ++ fmt02 s ++ " ".toList
                ++ fmt02 d ++ "/".toList ++ fmt02 mo ++ "/".toList) ++ fmtInt y := rfl
        rw [e, List.getLast?_append, hl]; rfl
      rw [this]
      intro hq
      injection hq with hq
      exact isdigit_ne_dquote l hld hq
    · have l1 := fmt02_length_int h hh.1 hh.2
      have l2 := fmt02_length_int mi hmi.1 hmi.2
      have l3 := fmt02_length_int s hs.1 hs.2
      have l4 := fmt02_length_int d hd.1 hd.2
      have l5 := fmt02_length_int mo (by omega) hmo.2
      have l6 := fmtInt_length_int y (by omega) hy.2
      simp only [humanText, List.length_append, String.toList, String.length] at *
      simp
      omega
  · intro ht
    have : (humanText h mi s d mo y).head? = some '<' := by
      have := congrArg List.head? ht
      simpa [List.head?_take] using this
    rw [hhead] at this
    injection this with this
    exact h4 this

/-- Read mode on the text of six `int`s: the timestamp of the (possibly carried-over) moment,
or the date error when `mktime` returns -1, that is when the library does not convert the
epoch value or the epoch value is -1. -/
theorem RunReadMode_humanText (lib : CLib) (h mi s d mo y : Int)
    (hf : IntFields h mi s d mo y) :
    RunReadMode lib (humanText h mi s d mo y) =
      if lib.Converts (epochSeconds h mi s d mo y) ∧ epochSeconds h mi s d mo y ≠ -1 then
        Run.exited 0 (encodeConsole (markup (epochSeconds h mi s d mo y)))
          (some (markup (epochSeconds h mi s d mo y)))
      else Run.exited 1 dateErrorText none := by
  obtain ⟨hs, ht⟩ := sanitize_humanText h mi s d mo y hf
  rw [RunReadMode_clean _ _ hs, if_neg ht,
    encodeHuman_of_scansTo _ _ _ _ _ _ _ _ _ (scansTo_humanText h mi s d mo y)]
  obtain ⟨hh, hmi, hse, hd, hmo, hy⟩ := hf
  have w1 := wrapInt32_id h hh.1 hh.2
  have w2 := wrapInt32_id mi hmi.1 hmi.2
  have w3 := wrapInt32_id s hse.1 hse.2
  have w4 := wrapInt32_id d hd.1 hd.2
  have w5 := wrapInt32_id mo (by omega) hmo.2
  have w6 := wrapInt32_id y (by omega) hy.2
  rw [w1, w2, w3, w4, w5, w6,
    mktime_fieldsToTm lib h mi s d mo y ⟨hh, hmi, hse, hd, hmo, hy⟩]
  by_cases hc : lib.Converts (epochSeconds h mi s d mo y)
  · by_cases he : epochSeconds h mi s d mo y = -1
    · simp [hc, he]
    · simp [hc, he]
  · simp [hc]

/-! ## The year of a day number -/

theorem daysInMonth_le (y m : Int) : daysInMonth y m ≤ 31 := by
  unfold daysInMonth; split_ifs <;> omega

/-- Day numbers of the dates of year `y` or later start at the day number of 1 January `y`,
in closed form. -/
theorem daysFromCivil_lower (y m d : Int) (hv : ValidDate y m d) :
    365 * (y - 1) + (y - 1) / 4 - (y - 1) / 100 + (y - 1) / 400 - 719162
      ≤ daysFromCivil y m d := by
  obtain ⟨h1, h2, h3, -⟩ := hv
  rw [daysFromCivil_eq]
  split_ifs <;> omega

/-- Day numbers of the dates of year `y` or earlier end before the day number of 1 January of
the next year, in closed form. -/
theorem daysFromCivil_upper (y m d : Int) (hv : ValidDate y m d) :
    daysFromCivil y m d < 365 * y + y / 4 - y / 100 + y / 400 - 719162 := by
  obtain ⟨h1, h2, h3, h4⟩ := hv
  by_cases hf : m = 2
  · subst hf
    by_cases hl : isLeapYear y = true
    · simp only [daysInMonth, hl, if_true] at h4
      rw [daysFromCivil_eq]
      norm_num
      omega
    · simp only [daysInMonth, hl] at h4
      simp only [isLeapYear, Bool.and_eq_true, Bool.or_eq_true, decide_eq_true_eq,
        bne_iff_ne, ne_eq, Bool.not_eq_true', decide_eq_false_iff_not] at hl
      rw [daysFromCivil_eq]
      norm_num at h4 ⊢
      omega
  · have h5 := daysInMonth_le y m
    have h6 : m = 1 ∨ m = 3 ∨ m = 4 ∨ m = 5 ∨ m = 6 ∨ m = 7 ∨ m = 8 ∨ m = 9 ∨ m = 10
        ∨ m = 11 ∨ m = 12 := by omega
    rw [daysFromCivil_eq]
    rcases h6 with e | e | e | e | e | e | e | e | e | e | e <;>
      (subst e; simp only [daysInMonth] at h4; norm_num at h4 ⊢; omega)

/-- The year of a valid moment is bounded through its epoch seconds. -/
theorem year_bounds (h mi s d mo y : Int) (hv : ValidMoment h mi s d mo y) :
    (365 * (y - 1) + (y - 1) / 4 - (y - 1) / 100 + (y - 1) / 400 - 719162) * 86400
        ≤ epochSeconds h mi s d mo y
      ∧ epochSeconds h mi s d mo y
        < (365 * y + y / 4 - y / 100 + y / 400 - 719162) * 86400 := by
  rw [epochSeconds_valid h mi s d mo y hv]
  obtain ⟨h0, h1, h2, h3, h4, h5, h6, h7, h8, h9⟩ := hv
  have lo := daysFromCivil_lower y mo d ⟨h6, h7, h8, h9⟩
  have hi := daysFromCivil_upper y mo d ⟨h6, h7, h8, h9⟩
  constructor <;> omega

/-- Every `time_t` is the epoch seconds of exactly the valid moment that `civilFromDays` and
the time of day give. -/
theorem moment_of_time (t : Int) :
    ∃ h mi s d mo y, ValidMoment h mi s d mo y ∧ epochSeconds h mi s d mo y = t
      ∧ y = (civilFromDays (t / 86400)).1 := by
  obtain ⟨⟨v1, v2, v3, v4⟩, hz⟩ := daysFromCivil_civilFromDays (t / 86400)
  have hv : ValidMoment (t % 86400 / 3600) (t % 86400 / 60 % 60) (t % 86400 % 60)
      (civilFromDays (t / 86400)).2.2 (civilFromDays (t / 86400)).2.1
      (civilFromDays (t / 86400)).1 :=
    ⟨by omega, by omega, by omega, by omega, by omega, by omega, v1, v2, v3, v4⟩
  refine ⟨_, _, _, _, _, _, hv, ?_, rfl⟩
  rw [epochSeconds_valid _ _ _ _ _ _ hv, hz]; omega

/-! ## Read mode on a markup string -/

theorem markup_eq (t : Int) : markup t = markupOf (wrapInt32 t) := rfl

theorem clampLLong_id (v : Int) (h0 : LLONG_MIN ≤ v) (h1 : v ≤ LLONG_MAX) :
    clampLLong v = v := by
  unfold clampLLong
  split_ifs <;> omega

theorem sanitize_markupOf (n : Int) (h0 : LLONG_MIN ≤ n) (h1 : n ≤ LLONG_MAX) :
    sanitize (markupOf n) = markupOf n := by
  apply sanitize_id
  · intro c hc
    have : c = '<' := by
      simp [markupOf] at hc
      exact hc.symm
    subst this
    decide
  · have e : markupOf n = ("<t:".toList ++ fmtInt n) ++ ":F>".toList := rfl
    have hq : ":F>".toList.getLast? = some '>' := by decide
    rw [e, List.getLast?_append, hq]
    show some '>' ≠ some dquote
    decide
  · have := fmtInt_length n h0 h1
    simp only [markupOf, List.length_append, String.toList, String.length]
    simp
    omega

/-- The markup branch on `<t:`, a printed integer, a terminator `:` or `>` and any tail: the
outcome depends on the integer only. -/
theorem decodeMarkup_fmtInt (lib : CLib) (n : Int) (h0 : LLONG_MIN ≤ n) (h1 : n ≤ LLONG_MAX)
    (c : Char) (hc : c = ':' ∨ c = '>') (tail : CString) :
    decodeMarkup lib ("<t:".toList ++ fmtInt n ++ c :: tail) =
      decodeResult ("<t:".toList ++ fmtInt n ++ c :: tail) (localtime lib n) := by
  have hd : ("<t:".toList ++ fmtInt n ++ c :: tail).drop 3 = fmtInt n ++ c :: tail := by
    simp
  have hcd : isdigit c = false := by rcases hc with rfl | rfl <;> decide
  have hs : strtoll (fmtInt n ++ c :: tail) = some (n, c :: tail) := by
    have := scanInteger_fmtInt n (c :: tail) (noDigitAhead_cons _ _ hcd)
    simp only [strtoll, this, Option.map, clampLLong_id n h0 h1]
  unfold decodeMarkup
  rw [hd, hs]
  cases hl : localtime lib n <;> rcases hc with rfl | rfl <;>
    simp [hl, decodeConsole, decodeResult]

theorem decodeMarkup_markupOf (lib : CLib) (n : Int) (h0 : LLONG_MIN ≤ n)
    (h1 : n ≤ LLONG_MAX) :
    decodeMarkup lib (markupOf n) = decodeResult (markupOf n) (localtime lib n) :=
  decodeMarkup_fmtInt lib n h0 h1 ':' (Or.inl rfl) "F>".toList

/-- Read mode on the markup string of a `long long`. -/
theorem RunReadMode_markupOf (lib : CLib) (n : Int) (h0 : LLONG_MIN ≤ n)
    (h1 : n ≤ LLONG_MAX) :
    RunReadMode lib (markupOf n) = decodeResult (markupOf n) (localtime lib n) := by
  have ht : (markupOf n).take 3 = "<t:".toList := by simp [markupOf]
  rw [RunReadMode_clean _ _ (sanitize_markupOf n h0 h1), if_pos ht,
    decodeMarkup_markupOf lib n h0 h1]

/-- Read mode on the markup string of the epoch seconds of a valid moment renders the
moment. -/
theorem RunReadMode_markupOf_moment (lib : CLib) (h mi s d mo y : Int)
    (hv : ValidMoment h mi s d mo y) (hy : INT_MIN + 1900 ≤ y ∧ y ≤ INT_MAX)
    (hconv : lib.Converts (epochSeconds h mi s d mo y)) :
    RunReadMode lib (markupOf (epochSeconds h mi s d mo y)) =
      Run.exited 0 (decodeConsole (markupOf (epochSeconds h mi s d mo y))
        (rendering h mi s d mo y)) none := by
  have hb := year_bounds h mi s d mo y hv
  unfold INT_MIN INT_MAX at hy
  rw [RunReadMode_markupOf _ _ (by unfold LLONG_MIN; omega) (by unfold LLONG_MAX; omega),
    localtime_epochSeconds lib h mi s d mo y hv (by unfold INT_MIN INT_MAX; omega) hconv]
  simp only [decodeResult, strftime_tmOfMoment]

/-! ## Further facts for the claims -/

/-- The only valid moment with epoch value -1 is 23:59:59 on 31 December 1969. -/
theorem epochSeconds_eq_neg_one (h mi s d mo y : Int) (hv : ValidMoment h mi s d mo y) :
    epochSeconds h mi s d mo y = -1 ↔
      (h = 23 ∧ mi = 59 ∧ s = 59 ∧ d = 31 ∧ mo = 12 ∧ y = 1969) := by
  constructor
  · intro he
    rw [epochSeconds_valid h mi s d mo y hv] at he
    obtain ⟨h0, h1, h2, h3, h4, h5, h6, h7, h8, h9⟩ := hv
    have hc := civilFromDays_daysFromCivil y mo d ⟨h6, h7, h8, h9⟩
    have hD : daysFromCivil y mo d = -1 := by omega
    rw [hD] at hc
    have hk : civilFromDays (-1) = (1969, 12, 31) := by decide
    rw [hk] at hc
    simp only [Prod.mk.injEq] at hc
    refine ⟨by omega, by omega, by omega, hc.2.2.symm, hc.2.1.symm, hc.1.symm⟩
  · rintro ⟨rfl, rfl, rfl, rfl, rfl, rfl⟩
    decide

/-- A valid moment whose epoch value fits the 32-bit `long` has a year that fits `int`. -/
theorem year_of_long (h mi s d mo y : Int) (hv : ValidMoment h mi s d mo y)
    (hlo : INT_MIN ≤ epochSeconds h mi s d mo y) (hhi : epochSeconds h mi s d mo y ≤ INT_MAX) :
    INT_MIN + 1900 ≤ y ∧ y ≤ INT_MAX := by
  have hb := year_bounds h mi s d mo y hv
  unfold INT_MIN at hlo ⊢
  unfold INT_MAX at hhi ⊢
  constructor <;> omega

theorem digitVal_le (c : Char) (h : isdigit c = true) : digitVal c ≤ 9 := by
  simp only [isdigit, Bool.and_eq_true, decide_eq_true_eq] at h
  obtain ⟨-, h2⟩ := h
  have : c.toNat ≤ ('9' : Char).toNat := h2
  have h9 : ('9' : Char).toNat = 57 := by decide
  unfold digitVal
  omega

theorem digitsVal_lt (l : CString) (hall : ∀ c ∈ l, isdigit c = true) :
    ∀ acc, digitsVal acc l < (acc + 1) * 10 ^ l.length := by
  induction l with
  | nil => intro acc; simp [digitsVal]
  | cons c cs ih =>
    intro acc
    have hc := digitVal_le c (hall c (by simp))
    have := ih (fun x hx => hall x (by simp [hx])) (acc * 10 + digitVal c)
    have e : digitsVal acc (c :: cs) = digitsVal (acc * 10 + digitVal c) cs := rfl
    rw [e, List.length_cons, pow_succ]
    calc digitsVal (acc * 10 + digitVal c) cs
        < (acc * 10 + digitVal c + 1) * 10 ^ cs.length := this
      _ ≤ ((acc + 1) * 10) * 10 ^ cs.length := by
          apply Nat.mul_le_mul_right; omega
      _ = (acc + 1) * (10 ^ cs.length * 10) := by ring

/-- A year from 1000 to 9999 is printed with four digits. -/
theorem fmtInt_length_four (y : Int) (h0 : 1000 ≤ y) (h1 : y ≤ 9999) :
    (fmtInt y).length = 4 := by
  obtain ⟨-, hall, hval⟩ := fmtNat_spec y.natAbs
  have hup := fmtNat_length y.natAbs 4 (by decide) (by norm_num; omega)
  have hlt := digitsVal_lt (fmtNat y.natAbs) hall 0
  rw [hval] at hlt
  have hv : ¬ y < 0 := by omega
  simp only [fmtInt, hv, if_false]
  by_contra hne
  have h3 : (fmtNat y.natAbs).length ≤ 3 := by omega
  have : (10 : Nat) ^ (fmtNat y.natAbs).length ≤ 10 ^ 3 :=
    Nat.pow_le_pow_right (by decide) h3
  omega

/-- The text of a timestamp has at most 17 characters. -/
theorem markup_length (t : Int) : (markup t).length ≤ 17 := by
  obtain ⟨h0, h1⟩ := wrapInt32_range t
  have := fmtInt_length_int (wrapInt32 t) h0 h1
  simp only [markup, List.length_append, String.toList, String.length]
  simp
  omega

/-- The text of a timestamp fits the buffer of `GenerateTimestamp`, the sentinel does not. -/
theorem fitsBuffer_guiFormat (timestamp : Int) :
    fitsBuffer (guiFormat timestamp) = true ↔ timestamp ≠ -1 := by
  by_cases ht : timestamp = -1
  · subst ht
    simp only [ne_eq, not_true_eq_false, iff_false]
    decide
  · have := markup_length timestamp
    simp only [guiFormat, ht, ne_eq, not_false_eq_true, if_true, fitsBuffer, bufferSize,
      decide_eq_true_eq, iff_true]
    omega

/-- The function `GenerateTimestamp` has undefined behaviour exactly when `mktime` returns
-1. -/
theorem GenerateTimestamp_undefined_iff (lib : CLib)
    (yearText monthText dayText hourText minuteText secondText : CString) :
    GenerateTimestamp lib yearText monthText dayText hourText minuteText secondText
        = GuiRun.undefinedBehaviour
      ↔ mktime lib (guiTm yearText monthText dayText hourText minuteText secondText)
        = -1 := by
  have hiff := fitsBuffer_guiFormat
    (mktime lib (guiTm yearText monthText dayText hourText minuteText secondText))
  unfold GenerateTimestamp guiText
  by_cases hm : mktime lib (guiTm yearText monthText dayText hourText minuteText secondText)
      = -1
  · have hn : ¬ fitsBuffer (guiFormat (mktime lib
        (guiTm yearText monthText dayText hourText minuteText secondText))) = true :=
      fun hx => (hiff.1 hx) hm
    rw [if_neg hn]
    exact ⟨fun _ => hm, fun _ => rfl⟩
  · rw [if_pos (hiff.2 hm)]
    exact ⟨fun hx => GuiRun.noConfusion hx, fun hx => absurd hx hm⟩

/-- A valid moment is determined by its epoch value. -/
theorem moment_unique (h mi s d mo y h' mi' s' d' mo' y' : Int)
    (hv : ValidMoment h mi s d mo y) (hv' : ValidMoment h' mi' s' d' mo' y')
    (he : epochSeconds h mi s d mo y = epochSeconds h' mi' s' d' mo' y') :
    h = h' ∧ mi = mi' ∧ s = s' ∧ d = d' ∧ mo = mo' ∧ y = y' := by
  rw [epochSeconds_valid h mi s d mo y hv, epochSeconds_valid h' mi' s' d' mo' y' hv'] at he
  obtain ⟨h0, h1, h2, h3, h4, h5, h6, h7, h8, h9⟩ := hv
  obtain ⟨k0, k1, k2, k3, k4, k5, k6, k7, k8, k9⟩ := hv'
  have hc := civilFromDays_daysFromCivil y mo d ⟨h6, h7, h8, h9⟩
  have hc' := civilFromDays_daysFromCivil y' mo' d' ⟨k6, k7, k8, k9⟩
  have hD : daysFromCivil y mo d = daysFromCivil y' mo' d' := by omega
  rw [hD, hc'] at hc
  simp only [Prod.mk.injEq] at hc
  refine ⟨by omega, by omega, by omega, hc.2.2.symm, hc.2.1.symm, hc.1.symm⟩

/-! ## The buffer of `strftime` -/

theorem weekdayName_length (wday : Int) : (weekdayName wday).length ≤ 9 := by
  unfold weekdayName
  by_cases h0 : wday = 0
  · rw [if_pos h0]; decide
  rw [if_neg h0]
  by_cases h1 : wday = 1
  · rw [if_pos h1]; decide
  rw [if_neg h1]
  by_cases h2 : wday = 2
  · rw [if_pos h2]; decide
  rw [if_neg h2]
  by_cases h3 : wday = 3
  · rw [if_pos h3]; decide
  rw [if_neg h3]
  by_cases h4 : wday = 4
  · rw [if_pos h4]; decide
  rw [if_neg h4]
  by_cases h5 : wday = 5
  · rw [if_pos h5]; decide
  rw [if_neg h5]
  by_cases h6 : wday = 6
  · rw [if_pos h6]; decide
  rw [if_neg h6]
  decide

theorem monthName_length (mon : Int) : (monthName mon).length ≤ 9 := by
  unfold monthName
  by_cases h0 : mon = 0
  · rw [if_pos h0]; decide
  rw [if_neg h0]
  by_cases h1 : mon = 1
  · rw [if_pos h1]; decide
  rw [if_neg h1]
  by_cases h2 : mon = 2
  · rw [if_pos h2]; decide
  rw [if_neg h2]
  by_cases h3 : mon = 3
  · rw [if_pos h3]; decide
  rw [if_neg h3]
  by_cases h4 : mon = 4
  · rw [if_pos h4]; decide
  rw [if_neg h4]
  by_cases h5 : mon = 5
  · rw [if_pos h5]; decide
  rw [if_neg h5]
  by_cases h6 : mon = 6
  · rw [if_pos h6]; decide
  rw [if_neg h6]
  by_cases h7 : mon = 7
  · rw [if_pos h7]; decide
  rw [if_neg h7]
  by_cases h8 : mon = 8
  · rw [if_pos h8]; decide
  rw [if_neg h8]
  by_cases h9 : mon = 9
  · rw [if_pos h9]; decide
  rw [if_neg h9]
  by_cases h10 : mon = 10
  · rw [if_pos h10]; decide
  rw [if_neg h10]
  by_cases h11 : mon = 11
  · rw [if_pos h11]; decide
  rw [if_neg h11]
  decide

theorem fmt02_length_two (v : Int) (h0 : 0 ≤ v) (h1 : v ≤ 99) : (fmt02 v).length ≤ 2 := by
  have hv : ¬ v < 0 := by omega
  unfold fmt02
  split_ifs with h
  · have := fmtNat_length v.natAbs 1 (by decide) (by norm_num; omega)
    simp only [fmtInt, hv, if_false, List.length_cons]
    omega
  · have := fmtNat_length v.natAbs 2 (by decide) (by norm_num; omega)
    simp only [fmtInt, hv, if_false]
    omega

theorem ampm_length (hour : Int) : (ampm hour).length = 2 := by
  unfold ampm
  split_ifs <;> rfl

theorem fmtInt_length_ten (v : Int) (h : v.natAbs < 10 ^ 10) : (fmtInt v).length ≤ 11 := by
  have := fmtNat_length v.natAbs 10 (by decide) h
  unfold fmtInt
  split_ifs
  · simp only [List.length_cons]; omega
  · omega

theorem hour12_range (hour : Int) : 1 ≤ hour12 hour ∧ hour12 hour ≤ 12 := by
  unfold hour12
  split_ifs <;> omega

/-- The text `strftime` formats for a result of `localtime` has at most 51 characters: with
its terminating NUL it fits the 128-byte buffer of line 147. -/
theorem strftime_fits_buffer (lib : CLib) (t : Int) (tm : Tm) (h : localtime lib t = some tm) :
    (strftime tm).length ≤ 51 := by
  obtain ⟨⟨v1, v2, v3, v4⟩, -⟩ := daysFromCivil_civilFromDays (t / 86400)
  have hd := daysInMonth_le (civilFromDays (t / 86400)).1 (civilFromDays (t / 86400)).2.1
  unfold localtime at h
  simp only at h
  split_ifs at h with hc
  injection h with h
  subst h
  obtain ⟨-, hy0, hy1⟩ := hc
  unfold INT_MIN at hy0
  unfold INT_MAX at hy1
  have l1 := weekdayName_length ((t / 86400 + 4) % 7)
  have l2 := monthName_length ((civilFromDays (t / 86400)).2.1 - 1)
  have l3 := fmt02_length_two (civilFromDays (t / 86400)).2.2 (by omega) (by omega)
  have e : (civilFromDays (t / 86400)).1 - 1900 + 1900 = (civilFromDays (t / 86400)).1 := by
    omega
  have l4 := fmtInt_length_ten (civilFromDays (t / 86400)).1 (by norm_num; omega)
  have hh := hour12_range (t % 86400 / 3600)
  have l5 := fmt02_length_two (hour12 (t % 86400 / 3600)) (by omega) (by omega)
  have l6 := fmt02_length_two (t % 86400 / 60 % 60) (by omega) (by omega)
  have l7 := fmt02_length_two (t % 86400 % 60) (by omega) (by omega)
  have l8 := ampm_length (t % 86400 / 3600)
  simp only [strftime, e, List.length_append, l8]
  have c1 : ", ".toList.length = 2 := rfl
  have c2 : " ".toList.length = 1 := rfl
  have c3 : " at ".toList.length = 4 := rfl
  have c4 : ":".toList.length = 1 := rfl
  rw [c1, c2, c3, c4]
  omega

/-! ## The claims about the conversions -/

/-- C1, as amended: for every valid calendar moment whose epoch value the C library converts,
is not -1 and fits the 32-bit `long`, read mode on the text `HH:MM:SS DD/MM/YYYY` succeeds
with the markup string of that epoch value (printed and copied to the clipboard), and read
mode on that markup string renders the weekday, month, day, year and 12-hour time of the
original moment. -/
theorem C1_round_trip_within_long (lib : CLib) (h mi s d mo y : Int)
    (hv : ValidMoment h mi s d mo y) (hconv : lib.Converts (epochSeconds h mi s d mo y))
    (hlo : INT_MIN ≤ epochSeconds h mi s d mo y) (hhi : epochSeconds h mi s d mo y ≤ INT_MAX)
    (hne : epochSeconds h mi s d mo y ≠ -1) :
    RunReadMode lib (humanText h mi s d mo y)
        = Run.exited 0 (encodeConsole (markupOf (epochSeconds h mi s d mo y)))
            (some (markupOf (epochSeconds h mi s d mo y)))
      ∧ RunReadMode lib (markupOf (epochSeconds h mi s d mo y))
        = Run.exited 0 (decodeConsole (markupOf (epochSeconds h mi s d mo y))
            (rendering h mi s d mo y)) none := by
  have hy := year_of_long h mi s d mo y hv hlo hhi
  have hf := validMoment_intFields h mi s d mo y hv hy
  refine ⟨?_, RunReadMode_markupOf_moment lib h mi s d mo y hv hy hconv⟩
  rw [RunReadMode_humanText lib h mi s d mo y hf, if_pos ⟨hconv, hne⟩, markup_eq,
    wrapInt32_id _ hlo hhi]

/-- C1, witness: 15:04:05 on 2 January 2006, with a library that converts the years 1970 to
3000. -/
theorem C1_round_trip_witness :
    ValidMoment 15 4 5 2 1 2006 ∧ epochSeconds 15 4 5 2 1 2006 = 1136214245
      ∧ (RunReadMode from1970 (humanText 15 4 5 2 1 2006)
          = Run.exited 0 (encodeConsole (markupOf (epochSeconds 15 4 5 2 1 2006)))
              (some (markupOf (epochSeconds 15 4 5 2 1 2006)))
        ∧ RunReadMode from1970 (markupOf (epochSeconds 15 4 5 2 1 2006))
          = Run.exited 0 (decodeConsole (markupOf (epochSeconds 15 4 5 2 1 2006))
              (rendering 15 4 5 2 1 2006)) none) :=
  ⟨by decide, by decide,
    C1_round_trip_within_long from1970 15 4 5 2 1 2006 (by decide) (by decide) (by decide)
      (by decide) (by decide)⟩

/-- C1, counterexample: midnight of 1 January 2040 is a valid moment, its text is converted
to `<t:-2085978496:F>` (the epoch value 2208988800 cut to a 32-bit `long`), and that markup
string is rendered as a day of 1903 by a library that converts every time, and makes
`localtime` return a null pointer in a library that converts no time before 1970: with
either library no markup string is both the result of the first conversion and rendered back
as the original moment. -/
theorem C1_round_trip_fails_after_2038 :
    ValidMoment 0 0 0 1 1 2040
      ∧ humanText 0 0 0 1 1 2040 = "00:00:00 01/01/2040".toList
      ∧ rendering 0 0 0 1 1 2040 = "Sunday, January 01, 2040 at 12:00:00 AM".toList
      ∧ RunReadMode fullRange "00:00:00 01/01/2040".toList
          = Run.exited 0 (encodeConsole "<t:-2085978496:F>".toList)
              (some "<t:-2085978496:F>".toList)
      ∧ RunReadMode fullRange "<t:-2085978496:F>".toList
          = Run.exited 0 (decodeConsole "<t:-2085978496:F>".toList
              "Wednesday, November 25, 1903 at 05:31:44 PM".toList) none
      ∧ RunReadMode from1970 "00:00:00 01/01/2040".toList
          = Run.exited 0 (encodeConsole "<t:-2085978496:F>".toList)
              (some "<t:-2085978496:F>".toList)
      ∧ RunReadMode from1970 "<t:-2085978496:F>".toList = Run.undefinedBehaviour
      ∧ (¬ ∃ M : CString,
          RunReadMode fullRange (humanText 0 0 0 1 1 2040)
              = Run.exited 0 (encodeConsole M) (some M)
            ∧ RunReadMode fullRange M
              = Run.exited 0 (decodeConsole M (rendering 0 0 0 1 1 2040)) none)
      ∧ ¬ ∃ M : CString,
          RunReadMode from1970 (humanText 0 0 0 1 1 2040)
              = Run.exited 0 (encodeConsole M) (some M)
            ∧ RunReadMode from1970 M
              = Run.exited 0 (decodeConsole M (rendering 0 0 0 1 1 2040)) none := by
  have h1 : humanText 0 0 0 1 1 2040 = "00:00:00 01/01/2040".toList := by decide
  have h4 : rendering 0 0 0 1 1 2040 = "Sunday, January 01, 2040 at 12:00:00 AM".toList := by
    decide
  have h2 : RunReadMode fullRange "00:00:00 01/01/2040".toList
      = Run.exited 0 (encodeConsole "<t:-2085978496:F>".toList)
          (some "<t:-2085978496:F>".toList) := by decide
  have h3 : RunReadMode fullRange "<t:-2085978496:F>".toList
      = Run.exited 0 (decodeConsole "<t:-2085978496:F>".toList
          "Wednesday, November 25, 1903 at 05:31:44 PM".toList) none := by decide
  have k2 : RunReadMode from1970 "00:00:00 01/01/2040".toList
      = Run.exited 0 (encodeConsole "<t:-2085978496:F>".toList)
          (some "<t:-2085978496:F>".toList) := by decide
  have k3 : RunReadMode from1970 "<t:-2085978496:F>".toList = Run.undefinedBehaviour := by
    decide
  refine ⟨by decide, h1, h4, h2, h3, k2, k3, ?_, ?_⟩
  · rintro ⟨M, hM1, hM2⟩
    rw [h1, h2] at hM1
    have hM : "<t:-2085978496:F>".toList = M := by
      injection hM1 with _ _ hc
      injection hc
    subst hM
    rw [h3, h4] at hM2
    revert hM2
    decide
  · rintro ⟨M, hM1, hM2⟩
    rw [h1, k2] at hM1
    have hM : "<t:-2085978496:F>".toList = M := by
      injection hM1 with _ _ hc
      injection hc
    subst hM
    rw [k3] at hM2
    exact Run.noConfusion hM2

/-- C2, as amended: for every valid input `HH:MM:SS DD/MM/YYYY` (the year an `int` that is at
least `INT_MIN + 1900`) whose epoch value the C library converts, other than 23:59:59
31/12/1969, the human-to-markup conversion succeeds and its output, printed and copied to
the clipboard, is exactly `<t:` followed by the decimal numeral of the epoch value after the
cast to the 32-bit `long` followed by `:F>`; the input 23:59:59 31/12/1969, whose epoch
value is -1, and the inputs whose epoch value the library does not convert are reported as
an invalid date/time. -/
theorem C2_encoder_output (lib : CLib) (h mi s d mo y : Int)
    (hv : ValidMoment h mi s d mo y) (hy0 : INT_MIN + 1900 ≤ y) (hy1 : y ≤ INT_MAX) :
    RunReadMode lib (humanText h mi s d mo y) =
      if lib.Converts (epochSeconds h mi s d mo y)
          ∧ ¬ (h = 23 ∧ mi = 59 ∧ s = 59 ∧ d = 31 ∧ mo = 12 ∧ y = 1969) then
        Run.exited 0
          (encodeConsole
            ("<t:".toList ++ fmtInt (wrapInt32 (epochSeconds h mi s d mo y)) ++ ":F>".toList))
          (some
            ("<t:".toList ++ fmtInt (wrapInt32 (epochSeconds h mi s d mo y)) ++ ":F>".toList))
      else Run.exited 1 dateErrorText none := by
  have hf := validMoment_intFields h mi s d mo y hv ⟨hy0, hy1⟩
  rw [RunReadMode_humanText lib h mi s d mo y hf]
  have hiff := epochSeconds_eq_neg_one h mi s d mo y hv
  by_cases hc : lib.Converts (epochSeconds h mi s d mo y)
  · by_cases he : epochSeconds h mi s d mo y = -1
    · rw [if_neg (fun hx => hx.2 he), if_neg (fun hx => hx.2 (hiff.1 he))]
    · rw [if_pos ⟨hc, he⟩, if_pos ⟨hc, fun hx => he (hiff.2 hx)⟩]
      rfl
  · rw [if_neg (fun hx => hc hx.1), if_neg (fun hx => hc hx.1)]

/-- C2, witness: 15:04:05 on 2 January 2006, with a library that converts the years 1970 to
3000. -/
theorem C2_encoder_witness :
    ValidMoment 15 4 5 2 1 2006
      ∧ RunReadMode from1970 (humanText 15 4 5 2 1 2006) =
        (if from1970.Converts (epochSeconds 15 4 5 2 1 2006)
            ∧ ¬ ((15 : Int) = 23 ∧ (4 : Int) = 59 ∧ (5 : Int) = 59 ∧ (2 : Int) = 31
              ∧ (1 : Int) = 12 ∧ (2006 : Int) = 1969) then
          Run.exited 0
            (encodeConsole
              ("<t:".toList ++ fmtInt (wrapInt32 (epochSeconds 15 4 5 2 1 2006))
                ++ ":F>".toList))
            (some
              ("<t:".toList ++ fmtInt (wrapInt32 (epochSeconds 15 4 5 2 1 2006))
                ++ ":F>".toList))
        else Run.exited 1 dateErrorText none) :=
  ⟨by decide, C2_encoder_output from1970 15 4 5 2 1 2006 (by decide) (by decide) (by decide)⟩

/-- C2, counterexample: 23:59:59 31/12/1969 has valid ranges, and the conversion reports an
invalid date/time with either library, since the epoch value of that moment is -1, the error
value of `mktime`; with a library that converts no time before 1970, midnight of 1 January
1960 is reported as invalid too. -/
theorem C2_encoder_rejects_epoch_minus_one :
    ValidMoment 23 59 59 31 12 1969
      ∧ humanText 23 59 59 31 12 1969 = "23:59:59 31/12/1969".toList
      ∧ epochSeconds 23 59 59 31 12 1969 = -1
      ∧ RunReadMode fullRange "23:59:59 31/12/1969".toList = Run.exited 1 dateErrorText none
      ∧ RunReadMode from1970 "23:59:59 31/12/1969".toList = Run.exited 1 dateErrorText none
      ∧ ValidMoment 0 0 0 1 1 1960
      ∧ RunReadMode from1970 "00:00:00 01/01/1960".toList
        = Run.exited 1 dateErrorText none := by
  decide

/-- C3, as amended: for every integer n from -30610224000 to 253402300799 (the years 1000 to
9999) that the C library converts, read mode on `<t:n:F>` succeeds and renders the one valid
calendar moment (UTC+0) that lies n seconds after the epoch in the format
`%A, %B %d, %Y at %I:%M:%S %p`, with a 4-digit year; in particular, when the library converts
the time 0, `<t:0:F>` yields `Thursday, January 01, 1970 at 12:00:00 AM`. -/
theorem C3_decoder_years_1000_to_9999 (lib : CLib) (n : Int) (h0 : -30610224000 ≤ n)
    (h1 : n ≤ 253402300799) (hconv : lib.Converts n) :
    (∃ h mi s d mo y, ValidMoment h mi s d mo y ∧ epochSeconds h mi s d mo y = n
        ∧ (∀ h' mi' s' d' mo' y', ValidMoment h' mi' s' d' mo' y' →
            epochSeconds h' mi' s' d' mo' y' = n →
            h' = h ∧ mi' = mi ∧ s' = s ∧ d' = d ∧ mo' = mo ∧ y' = y)
        ∧ (fmtInt y).length = 4
        ∧ RunReadMode lib (markupOf n)
          = Run.exited 0 (decodeConsole (markupOf n) (rendering h mi s d mo y)) none)
      ∧ (lib.Converts 0 → RunReadMode lib "<t:0:F>".toList
        = Run.exited 0 (decodeConsole "<t:0:F>".toList
            "Thursday, January 01, 1970 at 12:00:00 AM".toList) none) := by
  constructor
  · obtain ⟨h, mi, s, d, mo, y, hv, he, -⟩ := moment_of_time n
    have hb := year_bounds h mi s d mo y hv
    rw [he] at hb
    have hy0 : 1000 ≤ y := by omega
    have hy1 : y ≤ 9999 := by omega
    refine ⟨h, mi, s, d, mo, y, hv, he, ?_, fmtInt_length_four y hy0 hy1, ?_⟩
    · intro h' mi' s' d' mo' y' hv' he'
      exact moment_unique h' mi' s' d' mo' y' h mi s d mo y hv' hv (by rw [he, he'])
    · have := RunReadMode_markupOf_moment lib h mi s d mo y hv
        (by unfold INT_MIN INT_MAX; constructor <;> omega) (by rw [he]; exact hconv)
      rw [he] at this
      exact this
  · intro hz
    have hm : markupOf (epochSeconds 0 0 0 1 1 1970) = "<t:0:F>".toList := by decide
    have hr : rendering 0 0 0 1 1 1970
        = "Thursday, January 01, 1970 at 12:00:00 AM".toList := by decide
    have he : epochSeconds 0 0 0 1 1 1970 = 0 := by decide
    have := RunReadMode_markupOf_moment lib 0 0 0 1 1 1970 (by decide) (by decide)
      (by rw [he]; exact hz)
    rw [hm, hr] at this
    exact this

/-- C3, witness: n = 0, with a library that converts the years 1970 to 3000. -/
theorem C3_decoder_witness :
    (-30610224000 : Int) ≤ 0 ∧ (0 : Int) ≤ 253402300799 ∧ from1970.Converts 0
      ∧ ((∃ h mi s d mo y, ValidMoment h mi s d mo y ∧ epochSeconds h mi s d mo y = 0
          ∧ (∀ h' mi' s' d' mo' y', ValidMoment h' mi' s' d' mo' y' →
              epochSeconds h' mi' s' d' mo' y' = 0 →
              h' = h ∧ mi' = mi ∧ s' = s ∧ d' = d ∧ mo' = mo ∧ y' = y)
          ∧ (fmtInt y).length = 4
          ∧ RunReadMode from1970 (markupOf 0)
            = Run.exited 0 (decodeConsole (markupOf 0) (rendering h mi s d mo y)) none)
        ∧ (from1970.Converts 0 → RunReadMode from1970 "<t:0:F>".toList
          = Run.exited 0 (decodeConsole "<t:0:F>".toList
              "Thursday, January 01, 1970 at 12:00:00 AM".toList) none)) :=
  ⟨by decide, by decide, by decide,
    C3_decoder_years_1000_to_9999 from1970 0 (by decide) (by decide) (by decide)⟩

/-- C3, counterexample: `<t:253402300800:F>` is rendered with the 5-digit year 10000; on
`<t:99999999999999999999:F>` the run does not succeed with either library: `strtoll`
saturates, `localtime` returns a null pointer for a year that does not fit `tm_year`, and
`strftime` is called with it; and with a library that converts no time before 1970 the run
on `<t:-86400:F>` does not succeed either. -/
theorem C3_decoder_large_integers :
    RunReadMode fullRange "<t:253402300800:F>".toList
        = Run.exited 0 (decodeConsole "<t:253402300800:F>".toList
            "Saturday, January 01, 10000 at 12:00:00 AM".toList) none
      ∧ RunReadMode fullRange "<t:99999999999999999999:F>".toList = Run.undefinedBehaviour
      ∧ RunReadMode from1970 "<t:99999999999999999999:F>".toList = Run.undefinedBehaviour
      ∧ RunReadMode from1970 "<t:-86400:F>".toList = Run.undefinedBehaviour := by
  decide

theorem scanDigits_snd (s : CString) : ∀ acc, (scanDigits s acc).2 = s.dropWhile isdigit := by
  induction s with
  | nil => intro acc; rfl
  | cons c cs ih =>
    intro acc
    by_cases hc : isdigit c = true
    · simp [scanDigits, hc, ih, List.dropWhile]
    · simp [scanDigits, hc, List.dropWhile]

theorem scanInteger_eq (s : CString) :
    scanInteger s =
      match unsignedPart s with
      | [] => none
      | c :: _ =>
        if isdigit c then
          some (if (s.dropWhile isspace).head? = some '-'
            then -((scanDigits (unsignedPart s) 0).1 : Int)
            else ((scanDigits (unsignedPart s) 0).1 : Int),
            (scanDigits (unsignedPart s) 0).2)
        else none := rfl

theorem scanInteger_eq_none_iff (s : CString) :
    scanInteger s = none ↔ (unsignedPart s).takeWhile isdigit = [] := by
  rw [scanInteger_eq]
  cases hu : unsignedPart s with
  | nil => simp
  | cons c cs =>
    by_cases hc : isdigit c = true
    · simp [hc, List.takeWhile]
    · simp [hc, List.takeWhile]

theorem scanInteger_rest (s : CString) (r : Int × CString) (h : scanInteger s = some r) :
    r.2 = (unsignedPart s).dropWhile isdigit := by
  rw [scanInteger_eq] at h
  cases hu : unsignedPart s with
  | nil => rw [hu] at h; exact Option.noConfusion h
  | cons c cs =>
    rw [hu] at h
    simp only at h
    split_ifs at h with hc
    · injection h with h
      rw [← h]
      simp only [scanDigits_snd]
    · injection h with h
      rw [← h]
      simp only [scanDigits_snd]

theorem strtoll_eq_none_iff (s : CString) :
    strtoll s = none ↔ (unsignedPart s).takeWhile isdigit = [] := by
  rw [← scanInteger_eq_none_iff]
  unfold strtoll
  cases scanInteger s <;> simp

theorem strtoll_rest (s : CString) (r : Int × CString) (h : strtoll s = some r) :
    r.2 = (unsignedPart s).dropWhile isdigit := by
  unfold strtoll at h
  cases hs : scanInteger s with
  | none => rw [hs] at h; exact Option.noConfusion h
  | some q =>
    rw [hs] at h
    simp only [Option.map] at h
    injection h with h
    rw [← h]
    exact scanInteger_rest s q hs

/-- The markup branch reports the parse error exactly when no digit follows the optional
white space and sign, or the character after the digits is neither `:` nor `>`. -/
theorem decodeMarkup_parseError_iff (lib : CLib) (clean : CString) :
    decodeMarkup lib clean = Run.exited 1 parseErrorText none ↔
      ((unsignedPart (clean.drop 3)).takeWhile isdigit = []
        ∨ (((unsignedPart (clean.drop 3)).dropWhile isdigit).head? ≠ some ':'
          ∧ ((unsignedPart (clean.drop 3)).dropWhile isdigit).head? ≠ some '>')) := by
  unfold decodeMarkup
  cases hs : strtoll (clean.drop 3) with
  | none =>
    simp only [true_iff]
    exact Or.inl ((strtoll_eq_none_iff _).1 hs)
  | some r =>
    have hrest := strtoll_rest _ r hs
    have hne : ¬ (unsignedPart (clean.drop 3)).takeWhile isdigit = [] := by
      intro hc
      rw [(strtoll_eq_none_iff _).2 hc] at hs
      exact Option.noConfusion hs
    simp only [hrest]
    by_cases hterm : ((unsignedPart (clean.drop 3)).dropWhile isdigit).head? ≠ some ':'
        ∧ ((unsignedPart (clean.drop 3)).dropWhile isdigit).head? ≠ some '>'
    · rw [if_pos hterm]
      simp only [true_iff]
      exact Or.inr hterm
    · rw [if_neg hterm]
      constructor
      · intro h
        cases hl : localtime lib r.1 with
        | none => rw [hl] at h; exact Run.noConfusion h
        | some tm =>
          rw [hl] at h
          have : (0 : Int) = 1 := by injection h
          omega
      · rintro (h | h)
        · exact absurd h hne
        · exact absurd h hterm

/-! ## The claims about parsing, sanitation, dispatch and the buffer -/

/-- The input `<t:abc:F>` fails with the parse error, whatever the library. -/
theorem RunReadMode_abc (lib : CLib) :
    RunReadMode lib "<t:abc:F>".toList = Run.exited 1 parseErrorText none := by
  have hs : sanitize "<t:abc:F>".toList = "<t:abc:F>".toList := by decide
  have ht : ("<t:abc:F>".toList).take 3 = "<t:".toList := by decide
  rw [RunReadMode_clean lib _ hs, if_pos ht, decodeMarkup_parseError_iff]
  decide

/-- The input `12:30 01/01/2001` fails with the format error, whatever the library. -/
theorem RunReadMode_five_integers (lib : CLib) :
    RunReadMode lib "12:30 01/01/2001".toList = Run.exited 1 formatErrorText none := by
  have hs : sanitize "12:30 01/01/2001".toList = "12:30 01/01/2001".toList := by decide
  have ht : ("12:30 01/01/2001".toList).take 3 ≠ "<t:".toList := by decide
  have hi : itemsParsed "12:30 01/01/2001".toList ≠ 6 := by decide
  rw [RunReadMode_clean lib _ hs, if_neg ht]
  simp only [encodeHuman, hi, ne_eq, not_false_eq_true, if_true]

/-- C4, as amended: for every input whose sanitized text starts with `<t:`, read mode fails
with the parse error (exit code 1) if and only if, after optional white space and an
optional sign behind the prefix, no digits are found, or the character ending the digits is
neither `:` nor `>`; behind a printed integer and a terminator `:` or `>` the rest of the
text (the style flag) does not affect the result, which is determined by the integer; and
`<t:abc:F>` fails. -/
theorem C4_parse_failure (lib : CLib) (inputStr : CString)
    (hp : (sanitize inputStr).take 3 = "<t:".toList) :
    (RunReadMode lib inputStr = Run.exited 1 parseErrorText none ↔
        ((unsignedPart ((sanitize inputStr).drop 3)).takeWhile isdigit = []
          ∨ (((unsignedPart ((sanitize inputStr).drop 3)).dropWhile isdigit).head? ≠ some ':'
            ∧ ((unsignedPart ((sanitize inputStr).drop 3)).dropWhile isdigit).head?
              ≠ some '>')))
      ∧ (∀ (n : Int) (c : Char) (tail : CString), LLONG_MIN ≤ n → n ≤ LLONG_MAX →
          (c = ':' ∨ c = '>') →
          decodeMarkup lib ("<t:".toList ++ fmtInt n ++ c :: tail)
            = decodeResult ("<t:".toList ++ fmtInt n ++ c :: tail) (localtime lib n))
      ∧ RunReadMode lib "<t:abc:F>".toList = Run.exited 1 parseErrorText none := by
  refine ⟨?_, fun n c tail h0 h1 hc => decodeMarkup_fmtInt lib n h0 h1 c hc tail,
    RunReadMode_abc lib⟩
  have : RunReadMode lib inputStr = decodeMarkup lib (sanitize inputStr) := by
    simp only [RunReadMode, hp, if_true]
  rw [this]
  exact decodeMarkup_parseError_iff lib (sanitize inputStr)

/-- C4, witness: the input `<t:abc:F>`. -/
theorem C4_parse_failure_witness :
    (sanitize "<t:abc:F>".toList).take 3 = "<t:".toList
      ∧ ((RunReadMode from1970 "<t:abc:F>".toList = Run.exited 1 parseErrorText none ↔
          ((unsignedPart ((sanitize "<t:abc:F>".toList).drop 3)).takeWhile isdigit = []
            ∨ (((unsignedPart ((sanitize "<t:abc:F>".toList).drop 3)).dropWhile
                  isdigit).head? ≠ some ':'
              ∧ ((unsignedPart ((sanitize "<t:abc:F>".toList).drop 3)).dropWhile
                  isdigit).head? ≠ some '>')))
        ∧ (∀ (n : Int) (c : Char) (tail : CString), LLONG_MIN ≤ n → n ≤ LLONG_MAX →
            (c = ':' ∨ c = '>') →
            decodeMarkup from1970 ("<t:".toList ++ fmtInt n ++ c :: tail)
              = decodeResult ("<t:".toList ++ fmtInt n ++ c :: tail) (localtime from1970 n))
        ∧ RunReadMode from1970 "<t:abc:F>".toList = Run.exited 1 parseErrorText none) :=
  ⟨by decide, C4_parse_failure from1970 "<t:abc:F>".toList (by decide)⟩

/-- C4, counterexample: in `<t: 5:F>` a space, not a digit, stands immediately after the
prefix, and `:` ends the integer; read mode does not fail with the parse error, since
`strtoll` skips the white space: it renders the time of 5 seconds after the epoch. -/
theorem C4_space_after_prefix_is_accepted :
    sanitize "<t: 5:F>".toList = "<t: 5:F>".toList
      ∧ ("<t: 5:F>".toList.drop 3).head? = some ' '
      ∧ ("<t: 5:F>".toList.drop 3).takeWhile isdigit = []
      ∧ RunReadMode from1970 "<t: 5:F>".toList
        = Run.exited 0 (decodeConsole "<t: 5:F>".toList
            "Thursday, January 01, 1970 at 12:00:05 AM".toList) none
      ∧ RunReadMode from1970 "<t: 5:F>".toList ≠ Run.exited 1 parseErrorText none := by
  decide

/-- C5, as amended: for every input whose sanitized text does not start with `<t:`, read
mode fails with the format error and exit code 1 exactly when the text does not consist of
six integers in the sense of the format `%d:%d:%d %d/%d/%d`; six printed integers separated
by `:`, `:`, any non-empty run of white space (not only a single space), `/` and `/` and
followed by any text that does not go on with a digit do consist of six integers; an input
with only five integers (missing seconds) fails with the format error and exit code 1. -/
theorem C5_format_check (lib : CLib) (inputStr : CString)
    (hp : (sanitize inputStr).take 3 ≠ "<t:".toList) :
    (RunReadMode lib inputStr = Run.exited 1 formatErrorText none ↔
        ¬ SixIntegers (sanitize inputStr))
      ∧ (∀ (v1 v2 v3 v4 v5 v6 : Int) (ws trailing : CString),
          (∀ c ∈ ws, isspace c = true) → ws ≠ [] → NoDigitAhead trailing →
          ScansTo (sixText (fmtInt v1) (fmtInt v2) (fmtInt v3) ws (fmtInt v4) (fmtInt v5)
            (fmtInt v6) trailing) v1 v2 v3 v4 v5 v6 trailing)
      ∧ RunReadMode lib "12:30 01/01/2001".toList = Run.exited 1 formatErrorText none := by
  refine ⟨?_, ?_, RunReadMode_five_integers lib⟩
  · have : RunReadMode lib inputStr = encodeHuman lib (sanitize inputStr) := by
      simp only [RunReadMode, hp, if_false]
    rw [this]
    exact encodeHuman_formatError_iff lib (sanitize inputStr)
  · intro v1 v2 v3 v4 v5 v6 ws trailing hws hne htr
    exact scansTo_sixText _ _ _ _ _ _ _ _ _ _ _ _ _ _ (numeral_fmtInt v1) (numeral_fmtInt v2)
      (numeral_fmtInt v3) (numeral_fmtInt v4) (numeral_fmtInt v5) (numeral_fmtInt v6)
      hws hne htr

/-- C5, witness: the input `12:30 01/01/2001`. -/
theorem C5_format_check_witness :
    (sanitize "12:30 01/01/2001".toList).take 3 ≠ "<t:".toList
      ∧ ((RunReadMode from1970 "12:30 01/01/2001".toList = Run.exited 1 formatErrorText none ↔
          ¬ SixIntegers (sanitize "12:30 01/01/2001".toList))
        ∧ (∀ (v1 v2 v3 v4 v5 v6 : Int) (ws trailing : CString),
            (∀ c ∈ ws, isspace c = true) → ws ≠ [] → NoDigitAhead trailing →
            ScansTo (sixText (fmtInt v1) (fmtInt v2) (fmtInt v3) ws (fmtInt v4) (fmtInt v5)
              (fmtInt v6) trailing) v1 v2 v3 v4 v5 v6 trailing)
        ∧ RunReadMode from1970 "12:30 01/01/2001".toList = Run.exited 1 formatErrorText none) :=
  ⟨by decide, C5_format_check from1970 "12:30 01/01/2001".toList (by decide)⟩

/-- C5, counterexample: with two spaces and a tab between the time and the date, and text
behind the year, the input is not of the form with a single space, and read mode gets past
parsing: it converts the moment. -/
theorem C5_more_than_a_single_space_passes :
    "12:30:00  \t01/01/2001 UTC".toList ≠ humanText 12 30 0 1 1 2001
      ∧ (sanitize "12:30:00  \t01/01/2001 UTC".toList).take 3 ≠ "<t:".toList
      ∧ RunReadMode from1970 "12:30:00  \t01/01/2001 UTC".toList
        = Run.exited 0 (encodeConsole "<t:978352200:F>".toList)
            (some "<t:978352200:F>".toList)
      ∧ RunReadMode from1970 (humanText 12 30 0 1 1 2001)
        = Run.exited 0 (encodeConsole "<t:978352200:F>".toList)
            (some "<t:978352200:F>".toList) := by
  decide

/-- A quoted text of at most 254 characters without a leading blank or quote and without a
trailing quote is sanitized to the text itself. -/
theorem sanitize_quoted (s : CString) (hl : s.getLast? ≠ some dquote)
    (hlen : s.length ≤ 254) : sanitize (quoted s) = s := by
  have hq1 : (dquote = ' ') = False := by decide
  have hq2 : (dquote = '\t') = False := by decide
  have h1 : (quoted s).dropWhile (fun c => c = ' ' || c = '\t') = quoted s := by
    simp [quoted, List.dropWhile, hq1, hq2]
  have h2 : (quoted s).take 255 = dquote :: (s ++ [dquote]).take 254 := by
    simp [quoted, List.take]
  by_cases h254 : s.length = 254
  · have h3 : (s ++ [dquote]).take 254 = s := by
      rw [List.take_append_of_le_length (by omega), List.take_of_length_le (by omega)]
    simp only [sanitize, h1, h2, h3, List.head?_cons, List.tail_cons, if_true, hl, if_false]
  · have h3 : (s ++ [dquote]).take 254 = s ++ [dquote] :=
      List.take_of_length_le (by simp; omega)
    simp only [sanitize, h1, h2, h3, List.head?_cons, List.tail_cons, if_true,
      List.getLast?_concat, List.dropLast_concat]

/-- C7, as amended: for every input string s of at most 254 characters that does not start
with a space, a tab or a double quote and does not end with a double quote, read mode given
s wrapped in one pair of double quotes produces the same result (same sanitized text, s
itself, hence same conversion output and same exit code) as read mode given s unquoted;
e.g. `"<t:100:F>"` and `<t:100:F>` decode identically. -/
theorem C7_quote_symmetry (lib : CLib) (s : CString)
    (hh : ∀ c, s.head? = some c → c ≠ ' ' ∧ c ≠ '\t' ∧ c ≠ dquote)
    (hl : s.getLast? ≠ some dquote) (hlen : s.length ≤ 254) :
    sanitize (quoted s) = s ∧ sanitize s = s
      ∧ RunReadMode lib (quoted s) = RunReadMode lib s
      ∧ RunReadMode lib (quoted "<t:100:F>".toList) = RunReadMode lib "<t:100:F>".toList := by
  have h1 := sanitize_quoted s hl hlen
  have h2 := sanitize_id s hh hl (by omega)
  have h3 : sanitize (quoted "<t:100:F>".toList) = sanitize "<t:100:F>".toList := by decide
  refine ⟨h1, h2, ?_, ?_⟩
  · simp only [RunReadMode, h1, h2]
  · simp only [RunReadMode, h3]

/-- C7, witness: the input `<t:100:F>`, with a library that converts the years 1970 to
3000. -/
theorem C7_quote_symmetry_witness :
    (sanitize (quoted "<t:100:F>".toList) = "<t:100:F>".toList
      ∧ sanitize "<t:100:F>".toList = "<t:100:F>".toList
      ∧ RunReadMode from1970 (quoted "<t:100:F>".toList)
        = RunReadMode from1970 "<t:100:F>".toList
      ∧ RunReadMode from1970 (quoted "<t:100:F>".toList)
        = RunReadMode from1970 "<t:100:F>".toList)
      ∧ RunReadMode from1970 "<t:100:F>".toList
        = Run.exited 0 (decodeConsole "<t:100:F>".toList
            "Thursday, January 01, 1970 at 12:01:40 AM".toList) none :=
  ⟨C7_quote_symmetry from1970 "<t:100:F>".toList (by decide) (by decide) (by decide),
    by decide⟩

/-- C7, counterexample: for s a space followed by `<t:100:F>`, read mode on s skips the space
and decodes the timestamp, while read mode on s in double quotes keeps the space behind the
removed quote and fails with the format error; and for s the text `<t:100:F>` already in
double quotes, wrapping it in a second pair makes read mode fail. -/
theorem C7_quotes_change_the_result :
    RunReadMode from1970 " <t:100:F>".toList
        = Run.exited 0 (decodeConsole "<t:100:F>".toList
            "Thursday, January 01, 1970 at 12:01:40 AM".toList) none
      ∧ sanitize (quoted " <t:100:F>".toList) = " <t:100:F>".toList
      ∧ RunReadMode from1970 (quoted " <t:100:F>".toList)
        = Run.exited 1 formatErrorText none
      ∧ RunReadMode from1970 (quoted "<t:100:F>".toList)
        = Run.exited 0 (decodeConsole "<t:100:F>".toList
            "Thursday, January 01, 1970 at 12:01:40 AM".toList) none
      ∧ RunReadMode from1970 (quoted (quoted "<t:100:F>".toList))
        = Run.exited 1 formatErrorText none
      ∧ RunReadMode fullRange " <t:100:F>".toList
        ≠ RunReadMode fullRange (quoted " <t:100:F>".toList) := by
  decide

/-! ## Exit code and clipboard -/

/-- Apart from the runs with undefined behaviour, read mode keeps the discipline of exit code
and clipboard: exit code 1 comes with one of the three error messages and no clipboard
write; exit code 0 comes either from a markup input, with the rendered time on the console
and no clipboard write, or from a human-readable input, with the generated markup string on
the console and on the clipboard. -/
theorem RunReadMode_discipline (lib : CLib) (inputStr : CString) :
    RunReadMode lib inputStr = Run.undefinedBehaviour
      ∨ RunReadMode lib inputStr = Run.exited 1 parseErrorText none
      ∨ RunReadMode lib inputStr = Run.exited 1 formatErrorText none
      ∨ RunReadMode lib inputStr = Run.exited 1 dateErrorText none
      ∨ ((sanitize inputStr).take 3 = "<t:".toList
          ∧ ∃ tm, RunReadMode lib inputStr
            = Run.exited 0 (decodeConsole (sanitize inputStr) (strftime tm)) none)
      ∨ ((sanitize inputStr).take 3 ≠ "<t:".toList
          ∧ ∃ t, t ≠ -1 ∧ RunReadMode lib inputStr
            = Run.exited 0 (encodeConsole (markup t)) (some (markup t))) := by
  by_cases hp : (sanitize inputStr).take 3 = "<t:".toList
  · have e : RunReadMode lib inputStr = decodeMarkup lib (sanitize inputStr) := by
      simp only [RunReadMode, hp, if_true]
    rw [e]
    unfold decodeMarkup
    cases strtoll ((sanitize inputStr).drop 3) with
    | none => exact Or.inr (Or.inl rfl)
    | some r =>
      simp only
      split_ifs
      · exact Or.inr (Or.inl rfl)
      · cases localtime lib r.1 with
        | none => exact Or.inl rfl
        | some tm => exact Or.inr (Or.inr (Or.inr (Or.inr (Or.inl ⟨hp, tm, rfl⟩))))
  · have e : RunReadMode lib inputStr = encodeHuman lib (sanitize inputStr) := by
      simp only [RunReadMode, hp, if_false]
    rw [e]
    by_cases h6 : SixIntegers (sanitize inputStr)
    · obtain ⟨v1, v2, v3, v4, v5, v6, rest, hsc⟩ := h6
      rw [encodeHuman_of_scansTo _ _ _ _ _ _ _ _ _ hsc]
      split_ifs with ht
      · exact Or.inr (Or.inr (Or.inr (Or.inl rfl)))
      · exact Or.inr (Or.inr (Or.inr (Or.inr (Or.inr ⟨hp, _, ht, rfl⟩))))
    · exact Or.inr (Or.inr (Or.inl ((encodeHuman_formatError_iff _ _).2 h6)))

/-- C8, the defect: on `<t:9223372036854775807:F>` the integer is parsed, `localtime` returns
a null pointer because the year does not fit `tm_year`, and `strftime` is called with it:
the run has undefined behaviour with either library, so it ends neither with a reported
error and exit code 1 nor with a result and exit code 0.  Every run without undefined
behaviour keeps the discipline of the claim. -/
theorem C8_unchecked_localtime :
    RunReadMode fullRange "<t:9223372036854775807:F>".toList = Run.undefinedBehaviour
      ∧ RunReadMode from1970 "<t:9223372036854775807:F>".toList = Run.undefinedBehaviour
      ∧ strtoll "9223372036854775807:F>".toList = some (9223372036854775807, ":F>".toList)
      ∧ localtime fullRange 9223372036854775807 = none
      ∧ ∀ (lib : CLib) (inputStr : CString),
          RunReadMode lib inputStr = Run.undefinedBehaviour
            ∨ RunReadMode lib inputStr = Run.exited 1 parseErrorText none
            ∨ RunReadMode lib inputStr = Run.exited 1 formatErrorText none
            ∨ RunReadMode lib inputStr = Run.exited 1 dateErrorText none
            ∨ ((sanitize inputStr).take 3 = "<t:".toList
                ∧ ∃ tm, RunReadMode lib inputStr
                  = Run.exited 0 (decodeConsole (sanitize inputStr) (strftime tm)) none)
            ∨ ((sanitize inputStr).take 3 ≠ "<t:".toList
                ∧ ∃ t, t ≠ -1 ∧ RunReadMode lib inputStr
                  = Run.exited 0 (encodeConsole (markup t)) (some (markup t))) :=
  ⟨by decide, by decide, by decide, by decide, RunReadMode_discipline⟩

/-! ## Mode selection -/

/-- C9: for every command line, after skipping leading spaces and tabs, exactly one mode is
selected: read mode, on the text after the flag, exactly when the line starts with
`--read `; the no-GUI mode exactly when the line is `--nogui`; the GUI in every other case,
in particular when there are no arguments; the GUI is not launched when the line starts with
`--read ` or is `--nogui`. -/
theorem C9_mode_dispatch (lpCmdLine : CString) :
    (∀ inputStr, WinMain lpCmdLine = Mode.read inputStr ↔
        ((skipBlanks lpCmdLine).take 7 = "--read ".toList
          ∧ inputStr = (skipBlanks lpCmdLine).drop 7))
      ∧ (WinMain lpCmdLine = Mode.nogui ↔ skipBlanks lpCmdLine = "--nogui".toList)
      ∧ (WinMain lpCmdLine = Mode.gui ↔
          ((skipBlanks lpCmdLine).take 7 ≠ "--read ".toList
            ∧ skipBlanks lpCmdLine ≠ "--nogui".toList))
      ∧ (skipBlanks lpCmdLine = [] → WinMain lpCmdLine = Mode.gui) := by
  have hW : WinMain lpCmdLine =
      if (skipBlanks lpCmdLine).take 7 = "--read ".toList then
        Mode.read ((skipBlanks lpCmdLine).drop 7)
      else if skipBlanks lpCmdLine = "--nogui".toList then Mode.nogui else Mode.gui := rfl
  have hex : skipBlanks lpCmdLine = "--nogui".toList →
      (skipBlanks lpCmdLine).take 7 ≠ "--read ".toList := by
    intro h; rw [h]; decide
  rw [hW]
  by_cases h1 : (skipBlanks lpCmdLine).take 7 = "--read ".toList
  · rw [if_pos h1]
    refine ⟨?_, ?_, ?_, ?_⟩
    · intro inputStr
      constructor
      · intro h; injection h with h; exact ⟨h1, h.symm⟩
      · rintro ⟨-, h⟩; rw [h]
    · constructor
      · intro h; exact Mode.noConfusion h
      · intro h; exact absurd h1 (hex h)
    · constructor
      · intro h; exact Mode.noConfusion h
      · rintro ⟨h, -⟩; exact absurd h1 h
    · intro h
      rw [h] at h1
      exact absurd h1 (by decide)
  · rw [if_neg h1]
    by_cases h2 : skipBlanks lpCmdLine = "--nogui".toList
    · rw [if_pos h2]
      refine ⟨?_, ?_, ?_, ?_⟩
      · intro inputStr
        constructor
        · intro h; exact Mode.noConfusion h
        · rintro ⟨h, -⟩; exact absurd h h1
      · exact ⟨fun _ => h2, fun _ => rfl⟩
      · constructor
        · intro h; exact Mode.noConfusion h
        · rintro ⟨-, h⟩; exact absurd h2 h
      · intro h
        rw [h] at h2
        exact absurd h2 (by decide)
    · rw [if_neg h2]
      refine ⟨?_, ?_, ?_, ?_⟩
      · intro inputStr
        constructor
        · intro h; exact Mode.noConfusion h
        · rintro ⟨h, -⟩; exact absurd h h1
      · constructor
        · intro h; exact Mode.noConfusion h
        · intro h; exact absurd h h2
      · exact ⟨fun _ => ⟨h1, h2⟩, fun _ => rfl⟩
      · intro _; rfl

/-! ## The buffer of `GenerateTimestamp` -/

/-- C10, the defect: when `mktime` returns -1, as for the fields 23:59:59 31/12/1969 with
either library, `GenerateTimestamp` formats the sentinel `Error: Invalid date/time.` of 25
characters, which with its terminating NUL takes 26 bytes and overruns the 20-byte buffer:
the run has undefined behaviour, and so has every run in which `mktime` returns -1; the text
of a timestamp, by contrast, always fits. -/
theorem C10_sentinel_overruns_buffer :
    guiText fullRange "1969".toList "12".toList "31".toList "23".toList
        "59".toList "59".toList = "Error: Invalid date/time.".toList
      ∧ guiText from1970 "1969".toList "12".toList "31".toList "23".toList
        "59".toList "59".toList = "Error: Invalid date/time.".toList
      ∧ GenerateTimestamp fullRange "1969".toList "12".toList "31".toList "23".toList
        "59".toList "59".toList = GuiRun.undefinedBehaviour
      ∧ GenerateTimestamp from1970 "1969".toList "12".toList "31".toList "23".toList
        "59".toList "59".toList = GuiRun.undefinedBehaviour
      ∧ guiFormat (-1) = guiErrorText
      ∧ guiErrorText.length = 25
      ∧ fitsBuffer guiErrorText = false
      ∧ (∀ timestamp : Int, timestamp ≠ -1 → fitsBuffer (guiFormat timestamp) = true)
      ∧ ∀ (lib : CLib) (yearText monthText dayText hourText minuteText secondText : CString),
          GenerateTimestamp lib yearText monthText dayText hourText minuteText secondText
              = GuiRun.undefinedBehaviour
            ↔ mktime lib (guiTm yearText monthText dayText hourText minuteText secondText)
              = -1 :=
  ⟨by decide, by decide, by decide, by decide, by decide, by decide, by decide,
    fun t ht => (fitsBuffer_guiFormat t).2 ht, GenerateTimestamp_undefined_iff⟩

end Dtime
